import Mathlib

/-!
Verification of the chat-app repository: shallow embedding of the server's
framing layer, protocol codec, and hub state machine, and of the client's
command-line tokenizer, with theorems checking the specification's claims
against the embedded code.

Byte sequences are modelled as `List Nat` (one `Nat` per byte), strings as
Lean `String` (Go strings are byte sequences; all lengths that matter in the
hub are taken in UTF-8 bytes via `String.utf8ByteSize`, matching Go's `len`).
-/

namespace ChatApp

/-! ## Framing layer

`framing.LineWriter.WriteFrame` writes `payload` then `'\n'` then flushes,
after checking the context for cancellation.  `framing.LineReader.ReadFrame`
wraps a `bufio.Scanner` with split function `bufio.ScanLines` and a buffer
capped at `maxFrameBytes`; `bufio.ErrTooLong` is mapped to `FrameTooLarge`.
-/

inductive WriteError where
  | contextCanceled
  deriving DecidableEq, Repr

/-- `WriteFrame(ctx, payload)`: fails fast if the cancellation signal has
fired, otherwise emits `payload ++ ['\n']` (byte 10) to the stream. -/
def writeFrame (ctxCanceled : Bool) (payload : List Nat) :
    Except WriteError (List Nat) :=
  if ctxCanceled then .error .contextCanceled
  else .ok (payload ++ [10])

inductive ReadError where
  | frameTooLarge
  | eof
  deriving DecidableEq, Repr

/-- `bufio.dropCR`: removes one trailing `'\r'` (byte 13), as done by the
`bufio.ScanLines` split function used by `LineReader`. -/
def dropCR (data : List Nat) : List Nat :=
  if data.getLast? = some 13 then data.dropLast else data

/-- `ReadFrame()` observed over the whole incoming byte stream.

The `bufio.Scanner` holds at most `maxFrameBytes` bytes of buffered data
(`Scanner.Buffer` is called with that maximum, and growth stops once
`len(s.buf) >= s.maxTokenSize`), so a newline delimiter is found only if it
occurs at an index `< maxFrameBytes`; otherwise the buffer fills up without
a delimiter and `Scan` fails with `bufio.ErrTooLong`, which `ReadFrame`
maps to `FrameTooLarge`.  On success the payload (delimiter excluded,
trailing `'\r'` dropped by `ScanLines`) and the remaining stream are
returned.  At end of input, a non-empty unterminated line is returned as a
final frame if it fits the buffer; an empty stream yields `EOF`. -/
def readFrame (maxFrameBytes : Nat) (stream : List Nat) :
    Except ReadError (List Nat × List Nat) :=
  match stream.findIdx? (· = 10) with
  | some i =>
      if i < maxFrameBytes then
        .ok (dropCR (stream.take i), stream.drop (i + 1))
      else
        .error .frameTooLarge
  | none =>
      if maxFrameBytes ≤ stream.length then .error .frameTooLarge
      else if stream = [] then .error .eof
      else .ok (dropCR stream, [])

/-- `CHAT_SERVER_MAX_FRAME_BYTES` default. -/
def defaultMaxFrameBytes : Nat := 65536

/-- Write-then-read round trip over an otherwise empty stream, with a live
context and the default frame cap: the payload recovered by `ReadFrame`
from the bytes produced by `WriteFrame payload`. -/
def frameRoundTrip (payload : List Nat) : Option (List Nat) :=
  match writeFrame false payload with
  | .error _ => none
  | .ok bytes =>
      match readFrame defaultMaxFrameBytes bytes with
      | .ok (frame, _) => some frame
      | .error _ => none

/-! ## Protocol codec

`protocol.DecodeEnvelope` and the per-type strict decoders from
`internal/protocol/decode.go`, over a value-level model of JSON.  A frame's
bytes are represented by the JSON value they parse to (byte strings that
are not valid JSON behave like any non-object value: `DecodeEnvelope`
rejects them as `InvalidJSON`).  Go's `encoding/json` unmarshalling of a
struct reads only the keys named by the struct's field tags, leaves a field
at its zero value when its key is absent, fails when a named key holds a
value of the wrong JSON type, and ignores every other key.  Duplicate keys
(last occurrence wins in Go) do not arise in the frames considered here,
each key being bound at most once, so first-match lookup coincides. -/

inductive Json where
  | null
  | bool (b : Bool)
  | num (n : Int)
  | str (s : String)
  | arr (elems : List Json)
  | obj (fields : List (String × Json))

/-- First-match key lookup in a JSON object's field list. -/
def jlookup : List (String × Json) → String → Option Json
  | [], _ => none
  | (k, v) :: rest, key => if k = key then some v else jlookup rest key

inductive DecodeError where
  | invalidJSON
  | missingType
  | typeNotString
  | emptyField
  | wrongType
  | invalidStatus
  deriving DecidableEq, Repr

/-- A minimally decoded message: the `type` field, plus the raw payload
for strict per-type decoding. -/
structure Envelope where
  type : String
  raw : Json

/-- `DecodeEnvelope`: require a JSON object with a non-empty string field
`"type"`; keep the raw value for stage-two decoding. -/
def DecodeEnvelope (frame : Json) : Except DecodeError Envelope :=
  match frame with
  | .obj fields =>
      match jlookup fields "type" with
      | none => .error .missingType
      | some (.str t) =>
          if t = "" then .error .typeNotString
          else .ok { type := t, raw := frame }
      | some _ => .error .typeNotString
  | _ => .error .invalidJSON

/-- Unmarshal a `string`-typed struct field: absent key gives the zero
value `""`; a non-string value is an unmarshalling error. -/
def getStringField (fields : List (String × Json)) (key : String) :
    Except DecodeError String :=
  match jlookup fields key with
  | none => .ok ""
  | some (.str s) => .ok s
  | some _ => .error .invalidJSON

/-- Unmarshalling the elements of a JSON array into `[]string`: every
element must be a string. -/
def decodeStringArray : List Json → Except DecodeError (List String)
  | [] => .ok []
  | .str s :: rest => (decodeStringArray rest).map (s :: ·)
  | _ :: _ => .error .invalidJSON

/-- Unmarshal a `[]string`-typed struct field: absent key gives the zero
value (nil, modelled `[]`); a non-array value or a non-string element is
an unmarshalling error. -/
def getStringArrayField (fields : List (String × Json)) (key : String) :
    Except DecodeError (List String) :=
  match jlookup fields key with
  | none => .ok []
  | some (.arr elems) => decodeStringArray elems
  | some _ => .error .invalidJSON

structure IdentifyRequest where
  type : String
  username : String
  deriving DecidableEq, Repr

/-- `DecodeIdentify`: unmarshal, check the type literal, require a
non-empty username. -/
def DecodeIdentify (envelope : Envelope) : Except DecodeError IdentifyRequest :=
  match envelope.raw with
  | .obj fields => do
      let t ← getStringField fields "type"
      let u ← getStringField fields "username"
      if t ≠ "IDENTIFY" then .error .wrongType
      else if u = "" then .error .emptyField
      else .ok { type := t, username := u }
  | _ => .error .invalidJSON

structure StatusRequest where
  type : String
  status : String
  deriving DecidableEq, Repr

/-- `DecodeStatus`: unmarshal, check the type literal, require the status
to be one of the three allowed literals. -/
def DecodeStatus (envelope : Envelope) : Except DecodeError StatusRequest :=
  match envelope.raw with
  | .obj fields => do
      let t ← getStringField fields "type"
      let s ← getStringField fields "status"
      if t ≠ "STATUS" then .error .wrongType
      else if s = "ACTIVE" ∨ s = "AWAY" ∨ s = "BUSY" then
        .ok { type := t, status := s }
      else .error .invalidStatus
  | _ => .error .invalidJSON

/-- `DecodeUsers`: unmarshal and check the type literal. -/
def DecodeUsers (envelope : Envelope) : Except DecodeError Unit :=
  match envelope.raw with
  | .obj fields => do
      let t ← getStringField fields "type"
      if t ≠ "USERS" then .error .wrongType else .ok ()
  | _ => .error .invalidJSON

structure TextRequest where
  type : String
  username : String
  text : String
  deriving DecidableEq, Repr

/-- `DecodeText`: unmarshal, check the type literal, require non-empty
username and text. -/
def DecodeText (envelope : Envelope) : Except DecodeError TextRequest :=
  match envelope.raw with
  | .obj fields => do
      let t ← getStringField fields "type"
      let u ← getStringField fields "username"
      let x ← getStringField fields "text"
      if t ≠ "TEXT" then .error .wrongType
      else if u = "" then .error .emptyField
      else if x = "" then .error .emptyField
      else .ok { type := t, username := u, text := x }
  | _ => .error .invalidJSON

structure PublicTextRequest where
  type : String
  text : String
  deriving DecidableEq, Repr

/-- `DecodePublicText`: unmarshal, check the type literal, require
non-empty text. -/
def DecodePublicText (envelope : Envelope) :
    Except DecodeError PublicTextRequest :=
  match envelope.raw with
  | .obj fields => do
      let t ← getStringField fields "type"
      let x ← getStringField fields "text"
      if t ≠ "PUBLIC_TEXT" then .error .wrongType
      else if x = "" then .error .emptyField
      else .ok { type := t, text := x }
  | _ => .error .invalidJSON

structure NewRoomRequest where
  type : String
  roomname : String
  deriving DecidableEq, Repr

/-- `DecodeNewRoom`: unmarshal, check the type literal, require a
non-empty room name. -/
def DecodeNewRoom (envelope : Envelope) : Except DecodeError NewRoomRequest :=
  match envelope.raw with
  | .obj fields => do
      let t ← getStringField fields "type"
      let r ← getStringField fields "roomname"
      if t ≠ "NEW_ROOM" then .error .wrongType
      else if r = "" then .error .emptyField
      else .ok { type := t, roomname := r }
  | _ => .error .invalidJSON

structure InviteRequest where
  type : String
  roomname : String
  usernames : List String
  deriving DecidableEq, Repr

/-- `DecodeInvite`: unmarshal, check the type literal, require a non-empty
room name and a non-empty username array with non-empty elements. -/
def DecodeInvite (envelope : Envelope) : Except DecodeError InviteRequest :=
  match envelope.raw with
  | .obj fields => do
      let t ← getStringField fields "type"
      let r ← getStringField fields "roomname"
      let us ← getStringArrayField fields "usernames"
      if t ≠ "INVITE" then .error .wrongType
      else if r = "" then .error .emptyField
      else if us = [] then .error .emptyField
      else if us.any (· = "") then .error .emptyField
      else .ok { type := t, roomname := r, usernames := us }
  | _ => .error .invalidJSON

structure RoomRequest where
  type : String
  roomname : String
  deriving DecidableEq, Repr

/-- Shared shape of `DecodeJoinRoom`, `DecodeRoomUsers` and
`DecodeLeaveRoom`: unmarshal, check the given type literal, require a
non-empty room name. -/
def decodeRoomOnly (expected : String) (envelope : Envelope) :
    Except DecodeError RoomRequest :=
  match envelope.raw with
  | .obj fields => do
      let t ← getStringField fields "type"
      let r ← getStringField fields "roomname"
      if t ≠ expected then .error .wrongType
      else if r = "" then .error .emptyField
      else .ok { type := t, roomname := r }
  | _ => .error .invalidJSON

def DecodeJoinRoom : Envelope → Except DecodeError RoomRequest :=
  decodeRoomOnly "JOIN_ROOM"

def DecodeRoomUsers : Envelope → Except DecodeError RoomRequest :=
  decodeRoomOnly "ROOM_USERS"

def DecodeLeaveRoom : Envelope → Except DecodeError RoomRequest :=
  decodeRoomOnly "LEAVE_ROOM"

structure RoomTextRequest where
  type : String
  roomname : String
  text : String
  deriving DecidableEq, Repr

/-- `DecodeRoomText`: unmarshal, check the type literal, require non-empty
room name and text. -/
def DecodeRoomText (envelope : Envelope) : Except DecodeError RoomTextRequest :=
  match envelope.raw with
  | .obj fields => do
      let t ← getStringField fields "type"
      let r ← getStringField fields "roomname"
      let x ← getStringField fields "text"
      if t ≠ "ROOM_TEXT" then .error .wrongType
      else if r = "" then .error .emptyField
      else if x = "" then .error .emptyField
      else .ok { type := t, roomname := r, text := x }
  | _ => .error .invalidJSON

/-- `DecodeDisconnect`: unmarshal and check the type literal. -/
def DecodeDisconnect (envelope : Envelope) : Except DecodeError Unit :=
  match envelope.raw with
  | .obj fields => do
      let t ← getStringField fields "type"
      if t ≠ "DISCONNECT" then .error .wrongType else .ok ()
  | _ => .error .invalidJSON


/-! ## Hub state machine

Shallow embedding of `internal/hub/hub.go`.  Go maps become association
lists (`mlookup`/`minsert`/`merase` mirror map read, write and `delete`),
`map[T]struct{}` sets become duplicate-free string lists, and the hub's
mutation of state plus its `Send`/`Close` calls become a state
transformer returning the new state and the list of emitted outbound
events.  `ClientWriter.Send` is modelled as always succeeding (the
backpressure path `requestUnregisterNonBlocking` is never taken),
`context.Context` plays no role inside the handlers, and log output is
dropped.  Map iteration order, unspecified in Go, is fixed to list
order. -/

/-- Generic string-keyed map lookup. -/
def mlookup {β : Type} : List (String × β) → String → Option β
  | [], _ => none
  | (k, v) :: rest, key => if k = key then some v else mlookup rest key

/-- Map delete (`delete(m, key)`). -/
def merase {β : Type} : List (String × β) → String → List (String × β)
  | [], _ => []
  | (k, v) :: rest, key =>
      if k = key then merase rest key else (k, v) :: merase rest key

/-- Map write (`m[key] = v`). -/
def minsert {β : Type} (m : List (String × β)) (key : String) (v : β) :
    List (String × β) :=
  (key, v) :: merase m key

/-- Set insert (`set[x] = struct{}{}`). -/
def sinsert (s : List String) (x : String) : List String :=
  if x ∈ s then s else x :: s

/-- Set delete (`delete(set, x)`). -/
def serase (s : List String) (x : String) : List String :=
  s.filter (fun y => y != x)

/-- Go `len` on a string counts UTF-8 bytes. -/
def strLen (s : String) : Nat := s.utf8ByteSize

/-- `config.Config.MaxUsernameLength` (`protocolMaxUsernameLength`). -/
def maxUsernameLength : Nat := 8

/-- `config.Config.MaxRoomNameLength` (`protocolMaxRoomNameLength`). -/
def maxRoomNameLength : Nat := 16

/-- `hub.RoomState`. -/
structure RoomState where
  name : String
  members : List String
  invited : List String
  deriving DecidableEq, Repr

/-- The hub's mutable state (the `Hub` struct's maps; `ClientWriter`
handles carry no state, so `clients` keeps only its key set). -/
structure HubState where
  clients : List String
  clientUser : List (String × String)
  clientStatus : List (String × String)
  usernameOwner : List (String × String)
  rooms : List (String × RoomState)
  clientRooms : List (String × List String)
  deriving DecidableEq, Repr

/-- `hub.New`: all maps empty. -/
def hubNew : HubState :=
  { clients := [], clientUser := [], clientStatus := [],
    usernameOwner := [], rooms := [], clientRooms := [] }

/-- The server-to-client messages of `protocol/types.go`; `MustMarshal`
is infallible, so a frame is identified with the message it carries.
User lists are association lists `username → status`. -/
inductive ServerMsg where
  | response (operation result extra : String)
  | newUser (username : String)
  | newStatus (username status : String)
  | userList (users : List (String × String))
  | textFrom (username text : String)
  | publicTextFrom (username text : String)
  | invitation (roomname username : String)
  | joinedRoom (roomname username : String)
  | roomUserList (roomname : String) (users : List (String × String))
  | roomTextFrom (roomname username text : String)
  | leftRoom (roomname username : String)
  | disconnected (username : String)
  deriving DecidableEq, Repr

/-- An effect on a client connection: a frame handed to its writer, or
its writer being closed. -/
inductive OutEvent where
  | send (clientID : String) (msg : ServerMsg)
  | close (clientID : String)
  deriving DecidableEq, Repr

/-- `sendFrame`: look up the writer; silently drop the frame if the
client is gone (`Send` itself is modelled as always succeeding). -/
def sendFrame (s : HubState) (clientID : String) (msg : ServerMsg) :
    List OutEvent :=
  if clientID ∈ s.clients then [.send clientID msg] else []

/-- `broadcastExcept`: send to every registered client but one. -/
def broadcastExcept (s : HubState) (exceptID : String) (msg : ServerMsg) :
    List OutEvent :=
  (s.clients.filter (fun c => c != exceptID)).map (fun c => .send c msg)

/-- `deleteRoomIfEmpty`. -/
def deleteRoomIfEmpty (s : HubState) (roomName : String) : HubState :=
  match mlookup s.rooms roomName with
  | some room =>
      if room.members = [] then { s with rooms := merase s.rooms roomName }
      else s
  | none => s

/-- The body of the room loop in
`leaveAllJoinedRoomsWithNotification`: remove the leaving client from
one room's `members` and `invited`, notify the remaining members, and
delete the room if now empty. -/
def leaveRoomStep (leavingClientID leavingUsername : String)
    (acc : HubState × List OutEvent) (roomName : String) :
    HubState × List OutEvent :=
  match mlookup acc.1.rooms roomName with
  | none => acc
  | some room =>
      let room' := { room with
        members := serase room.members leavingClientID,
        invited := serase room.invited leavingClientID }
      let outs := room'.members.foldl (fun o m =>
        o ++ sendFrame acc.1 m (.leftRoom roomName leavingUsername)) []
      let st := { acc.1 with rooms := minsert acc.1.rooms roomName room' }
      (deleteRoomIfEmpty st roomName, acc.2 ++ outs)

/-- `leaveAllJoinedRoomsWithNotification`: for each room in the leaving
client's room set, drop it from `members` and `invited`, notify the
remaining members with `LEFT_ROOM`, and delete the room if now empty;
finally remove the client's room-set entry.  (When the client has no
room-set entry, or an empty one, the function returns at once.) -/
def leaveAllJoinedRoomsWithNotification (s : HubState) (leavingClientID : String)
    (leavingUsername : String) : HubState × List OutEvent :=
  match mlookup s.clientRooms leavingClientID with
  | none => (s, [])
  | some roomNames =>
      if roomNames = [] then (s, [])
      else
        let folded := roomNames.foldl
          (leaveRoomStep leavingClientID leavingUsername) (s, [])
        ({ folded.1 with clientRooms := merase folded.1.clientRooms leavingClientID },
          folded.2)

/-- `forceDisconnect`: no-op for unknown clients; for identified clients,
leave all joined rooms with notification, broadcast `DISCONNECTED`, then
remove every map entry for the client and close its writer; unidentified
clients are torn down silently. -/
def forceDisconnect (s : HubState) (clientID : String) : HubState × List OutEvent :=
  if clientID ∈ s.clients then
    match mlookup s.clientUser clientID with
    | some username =>
        let left := leaveAllJoinedRoomsWithNotification s clientID username
        let outs2 := broadcastExcept left.1 clientID (.disconnected username)
        let s2 := { left.1 with
          clients := serase left.1.clients clientID,
          clientUser := merase left.1.clientUser clientID,
          clientStatus := merase left.1.clientStatus clientID,
          usernameOwner := merase left.1.usernameOwner username }
        (s2, left.2 ++ outs2 ++ [.close clientID])
    | none =>
        let s2 := { s with
          clientRooms := merase s.clientRooms clientID,
          clients := serase s.clients clientID,
          clientUser := merase s.clientUser clientID,
          clientStatus := merase s.clientStatus clientID }
        (s2, [.close clientID])
  else (s, [])

/-- `sendInvalidAndDisconnect`: one `RESPONSE{operation, result}` frame,
then forced disconnect. -/
def sendInvalidAndDisconnect (s : HubState) (clientID operation result : String) :
    HubState × List OutEvent :=
  let outs := sendFrame s clientID (.response operation result "")
  let fd := forceDisconnect s clientID
  (fd.1, outs ++ fd.2)

/-- `handleIdentify`: strict decode, then the length-only username cap
check (`len(request.Username) == 0 || len(request.Username) >
h.cfg.MaxUsernameLength`; the character set is not inspected), then the
uniqueness check, then user creation with status ACTIVE, `SUCCESS`
response and `NEW_USER` broadcast. -/
def handleIdentify (s : HubState) (clientID : String) (envelope : Envelope) :
    HubState × List OutEvent :=
  match DecodeIdentify envelope with
  | .error _ => sendInvalidAndDisconnect s clientID "INVALID" "INVALID"
  | .ok request =>
      if strLen request.username = 0 ∨ maxUsernameLength < strLen request.username then
        sendInvalidAndDisconnect s clientID "INVALID" "INVALID"
      else
        match mlookup s.usernameOwner request.username with
        | some _ =>
            (s, sendFrame s clientID
              (.response "IDENTIFY" "USER_ALREADY_EXISTS" request.username))
        | none =>
            let s2 := { s with
              clientUser := minsert s.clientUser clientID request.username,
              clientStatus := minsert s.clientStatus clientID "ACTIVE",
              usernameOwner := minsert s.usernameOwner request.username clientID }
            (s2, sendFrame s2 clientID (.response "IDENTIFY" "SUCCESS" request.username)
              ++ broadcastExcept s2 clientID (.newUser request.username))

/-- `handleStatus`. -/
def handleStatus (s : HubState) (clientID username : String) (envelope : Envelope) :
    HubState × List OutEvent :=
  match DecodeStatus envelope with
  | .error _ => sendInvalidAndDisconnect s clientID "INVALID" "INVALID"
  | .ok request =>
      let s2 := { s with clientStatus := minsert s.clientStatus clientID request.status }
      (s2, broadcastExcept s2 clientID (.newStatus username request.status))

/-- `handleUsers`: snapshot of all identified users (status defaults to
ACTIVE if absent), sent to the requester. -/
def handleUsers (s : HubState) (clientID : String) (envelope : Envelope) :
    HubState × List OutEvent :=
  match DecodeUsers envelope with
  | .error _ => sendInvalidAndDisconnect s clientID "INVALID" "INVALID"
  | .ok _ =>
      let snapshot := s.clientUser.foldl (fun acc p =>
        minsert acc p.2 ((mlookup s.clientStatus p.1).getD "ACTIVE")) []
      (s, sendFrame s clientID (.userList snapshot))

/-- `handleText`: private message; `NO_SUCH_USER` if the recipient
username is unowned. -/
def handleText (s : HubState) (senderClientID senderUsername : String)
    (envelope : Envelope) : HubState × List OutEvent :=
  match DecodeText envelope with
  | .error _ => sendInvalidAndDisconnect s senderClientID "INVALID" "INVALID"
  | .ok request =>
      match mlookup s.usernameOwner request.username with
      | none =>
          (s, sendFrame s senderClientID
            (.response "TEXT" "NO_SUCH_USER" request.username))
      | some recipientClientID =>
          (s, sendFrame s recipientClientID (.textFrom senderUsername request.text))

/-- `handlePublicText`. -/
def handlePublicText (s : HubState) (senderClientID senderUsername : String)
    (envelope : Envelope) : HubState × List OutEvent :=
  match DecodePublicText envelope with
  | .error _ => sendInvalidAndDisconnect s senderClientID "INVALID" "INVALID"
  | .ok request =>
      (s, broadcastExcept s senderClientID (.publicTextFrom senderUsername request.text))

/-- `handleNewRoom`: length-capped room name, `ROOM_ALREADY_EXISTS` on
collision, else a fresh room whose only member is the creator. -/
def handleNewRoom (s : HubState) (creatorClientID : String) (envelope : Envelope) :
    HubState × List OutEvent :=
  match DecodeNewRoom envelope with
  | .error _ => sendInvalidAndDisconnect s creatorClientID "INVALID" "INVALID"
  | .ok request =>
      if strLen request.roomname = 0 ∨ maxRoomNameLength < strLen request.roomname then
        sendInvalidAndDisconnect s creatorClientID "INVALID" "INVALID"
      else
        match mlookup s.rooms request.roomname with
        | some _ =>
            (s, sendFrame s creatorClientID
              (.response "NEW_ROOM" "ROOM_ALREADY_EXISTS" request.roomname))
        | none =>
            let newRoom : RoomState :=
              { name := request.roomname, members := [creatorClientID], invited := [] }
            let s2 := { s with
              rooms := minsert s.rooms request.roomname newRoom,
              clientRooms := minsert s.clientRooms creatorClientID
                (sinsert ((mlookup s.clientRooms creatorClientID).getD [])
                  request.roomname) }
            (s2, sendFrame s2 creatorClientID
              (.response "NEW_ROOM" "SUCCESS" request.roomname))

/-- The target-resolution loop of `handleInvite`: map each target
username to its ConnectionID, failing with the first unknown one. -/
def resolveTargets (usernameOwner : List (String × String)) :
    List String → Except String (List String)
  | [] => .ok []
  | t :: rest =>
      match mlookup usernameOwner t with
      | none => .error t
      | some targetClientID =>
          match resolveTargets usernameOwner rest with
          | .error e => .error e
          | .ok ids => .ok (targetClientID :: ids)

/-- The body of the recipient loop in `handleInvite`: already-member
and already-invited recipients are skipped silently; anyone else is
added to `invited` and sent an `INVITATION`. -/
def inviteStep (s : HubState) (roomname inviterUsername : String)
    (acc : RoomState × List OutEvent) (recipientClientID : String) :
    RoomState × List OutEvent :=
  if recipientClientID ∈ acc.1.members then acc
  else if recipientClientID ∈ acc.1.invited then acc
  else
    ({ acc.1 with invited := sinsert acc.1.invited recipientClientID },
      acc.2 ++ sendFrame s recipientClientID (.invitation roomname inviterUsername))

/-- `handleInvite`: room must exist (`NO_SUCH_ROOM` otherwise) and the
inviter must be one of its members (protocol violation otherwise); all
targets are resolved up front, aborting with `NO_SUCH_USER` on the first
unknown username before any state change; already-member and
already-invited targets are skipped silently; each newly invited target
is added to `invited` and sent an `INVITATION`. -/
def handleInvite (s : HubState) (inviterClientID inviterUsername : String)
    (envelope : Envelope) : HubState × List OutEvent :=
  match DecodeInvite envelope with
  | .error _ => sendInvalidAndDisconnect s inviterClientID "INVALID" "INVALID"
  | .ok request =>
      if strLen request.roomname = 0 ∨ maxRoomNameLength < strLen request.roomname then
        sendInvalidAndDisconnect s inviterClientID "INVALID" "INVALID"
      else
        match mlookup s.rooms request.roomname with
        | none =>
            (s, sendFrame s inviterClientID
              (.response "INVITE" "NO_SUCH_ROOM" request.roomname))
        | some room =>
            if inviterClientID ∈ room.members then
              match resolveTargets s.usernameOwner request.usernames with
              | .error targetUsername =>
                  (s, sendFrame s inviterClientID
                    (.response "INVITE" "NO_SUCH_USER" targetUsername))
              | .ok recipientClientIDs =>
                  let folded := recipientClientIDs.foldl
                    (inviteStep s request.roomname inviterUsername) (room, [])
                  ({ s with rooms := minsert s.rooms request.roomname folded.1 },
                    folded.2)
            else sendInvalidAndDisconnect s inviterClientID "INVALID" "INVALID"

/-- `handleJoinRoom`: idempotent SUCCESS for current members; otherwise
the caller must be invited, and moves from `invited` to `members`, with
`JOINED_ROOM` broadcast to all members, joiner included. -/
def handleJoinRoom (s : HubState) (clientID username : String) (envelope : Envelope) :
    HubState × List OutEvent :=
  match DecodeJoinRoom envelope with
  | .error _ => sendInvalidAndDisconnect s clientID "INVALID" "INVALID"
  | .ok request =>
      if strLen request.roomname = 0 ∨ maxRoomNameLength < strLen request.roomname then
        sendInvalidAndDisconnect s clientID "INVALID" "INVALID"
      else
        match mlookup s.rooms request.roomname with
        | none =>
            (s, sendFrame s clientID
              (.response "JOIN_ROOM" "NO_SUCH_ROOM" request.roomname))
        | some room =>
            if clientID ∈ room.members then
              (s, sendFrame s clientID
                (.response "JOIN_ROOM" "SUCCESS" request.roomname))
            else if clientID ∈ room.invited then
              let room' := { room with
                invited := serase room.invited clientID,
                members := sinsert room.members clientID }
              let s2 := { s with
                rooms := minsert s.rooms request.roomname room',
                clientRooms := minsert s.clientRooms clientID
                  (sinsert ((mlookup s.clientRooms clientID).getD [])
                    request.roomname) }
              (s2, sendFrame s2 clientID
                  (.response "JOIN_ROOM" "SUCCESS" request.roomname)
                ++ room'.members.foldl (fun o m =>
                    o ++ sendFrame s2 m (.joinedRoom request.roomname username)) [])
            else
              (s, sendFrame s clientID
                (.response "JOIN_ROOM" "NOT_INVITED" request.roomname))

/-- `handleRoomUsers`: members only; snapshot of the room's identified
members and their statuses. -/
def handleRoomUsers (s : HubState) (requestingClientID : String) (envelope : Envelope) :
    HubState × List OutEvent :=
  match DecodeRoomUsers envelope with
  | .error _ => sendInvalidAndDisconnect s requestingClientID "INVALID" "INVALID"
  | .ok request =>
      if strLen request.roomname = 0 ∨ maxRoomNameLength < strLen request.roomname then
        sendInvalidAndDisconnect s requestingClientID "INVALID" "INVALID"
      else
        match mlookup s.rooms request.roomname with
        | none =>
            (s, sendFrame s requestingClientID
              (.response "ROOM_USERS" "NO_SUCH_ROOM" request.roomname))
        | some room =>
            if requestingClientID ∈ room.members then
              let snapshot := room.members.foldl (fun acc m =>
                match mlookup s.clientUser m with
                | none => acc
                | some memberUsername =>
                    minsert acc memberUsername
                      ((mlookup s.clientStatus m).getD "ACTIVE")) []
              (s, sendFrame s requestingClientID
                (.roomUserList request.roomname snapshot))
            else
              (s, sendFrame s requestingClientID
                (.response "ROOM_USERS" "NOT_JOINED" request.roomname))

/-- `handleRoomText`: members only; `ROOM_TEXT_FROM` to every other
member. -/
def handleRoomText (s : HubState) (senderClientID senderUsername : String)
    (envelope : Envelope) : HubState × List OutEvent :=
  match DecodeRoomText envelope with
  | .error _ => sendInvalidAndDisconnect s senderClientID "INVALID" "INVALID"
  | .ok request =>
      if strLen request.roomname = 0 ∨ maxRoomNameLength < strLen request.roomname then
        sendInvalidAndDisconnect s senderClientID "INVALID" "INVALID"
      else
        match mlookup s.rooms request.roomname with
        | none =>
            (s, sendFrame s senderClientID
              (.response "ROOM_TEXT" "NO_SUCH_ROOM" request.roomname))
        | some room =>
            if senderClientID ∈ room.members then
              (s, (room.members.filter (fun m => m != senderClientID)).foldl
                (fun o m =>
                  o ++ sendFrame s m
                    (.roomTextFrom request.roomname senderUsername request.text)) [])
            else
              (s, sendFrame s senderClientID
                (.response "ROOM_TEXT" "NOT_JOINED" request.roomname))

/-- `handleLeaveRoom`: drop membership, prune the reverse index,
broadcast `LEFT_ROOM` to the remaining members, delete the room if
empty.  No SUCCESS response is sent. -/
def handleLeaveRoom (s : HubState) (leavingClientID leavingUsername : String)
    (envelope : Envelope) : HubState × List OutEvent :=
  match DecodeLeaveRoom envelope with
  | .error _ => sendInvalidAndDisconnect s leavingClientID "INVALID" "INVALID"
  | .ok request =>
      if strLen request.roomname = 0 ∨ maxRoomNameLength < strLen request.roomname then
        sendInvalidAndDisconnect s leavingClientID "INVALID" "INVALID"
      else
        match mlookup s.rooms request.roomname with
        | none =>
            (s, sendFrame s leavingClientID
              (.response "LEAVE_ROOM" "NO_SUCH_ROOM" request.roomname))
        | some room =>
            if leavingClientID ∈ room.members then
              let room' := { room with members := serase room.members leavingClientID }
              let prunedRooms :=
                match mlookup s.clientRooms leavingClientID with
                | none => s.clientRooms
                | some clientRoomSet =>
                    let pruned := serase clientRoomSet request.roomname
                    if pruned = [] then merase s.clientRooms leavingClientID
                    else minsert s.clientRooms leavingClientID pruned
              let s2 := { s with
                rooms := minsert s.rooms request.roomname room',
                clientRooms := prunedRooms }
              let outs := room'.members.foldl (fun o m =>
                o ++ sendFrame s2 m (.leftRoom request.roomname leavingUsername)) []
              (deleteRoomIfEmpty s2 request.roomname, outs)
            else
              (s, sendFrame s leavingClientID
                (.response "LEAVE_ROOM" "NOT_JOINED" request.roomname))

/-- `handleDisconnect`: strict decode then the full disconnect flow. -/
def handleDisconnect (s : HubState) (clientID : String) (envelope : Envelope) :
    HubState × List OutEvent :=
  match DecodeDisconnect envelope with
  | .error _ => sendInvalidAndDisconnect s clientID "INVALID" "INVALID"
  | .ok _ => forceDisconnect s clientID

/-- `handleInbound`: envelope decode (failure is a protocol violation),
the identify-gate for unidentified connections, then the per-type
dispatch; unknown types (and IDENTIFY from an identified client) are
protocol violations. -/
def handleInbound (s : HubState) (clientID : String) (frame : Json) :
    HubState × List OutEvent :=
  match DecodeEnvelope frame with
  | .error _ => sendInvalidAndDisconnect s clientID "INVALID" "INVALID"
  | .ok envelope =>
      match mlookup s.clientUser clientID with
      | none =>
          if envelope.type ≠ "IDENTIFY" then
            sendInvalidAndDisconnect s clientID "INVALID" "NOT_IDENTIFIED"
          else handleIdentify s clientID envelope
      | some username =>
          if envelope.type = "STATUS" then handleStatus s clientID username envelope
          else if envelope.type = "USERS" then handleUsers s clientID envelope
          else if envelope.type = "TEXT" then handleText s clientID username envelope
          else if envelope.type = "PUBLIC_TEXT" then
            handlePublicText s clientID username envelope
          else if envelope.type = "NEW_ROOM" then handleNewRoom s clientID envelope
          else if envelope.type = "INVITE" then
            handleInvite s clientID username envelope
          else if envelope.type = "JOIN_ROOM" then
            handleJoinRoom s clientID username envelope
          else if envelope.type = "DISCONNECT" then
            handleDisconnect s clientID envelope
          else if envelope.type = "ROOM_USERS" then
            handleRoomUsers s clientID envelope
          else if envelope.type = "ROOM_TEXT" then
            handleRoomText s clientID username envelope
          else if envelope.type = "LEAVE_ROOM" then
            handleLeaveRoom s clientID username envelope
          else sendInvalidAndDisconnect s clientID "INVALID" "INVALID"

/-- One step of `closeAll`'s loop. -/
def closeAllStep (acc : HubState × List OutEvent) (clientID : String) :
    HubState × List OutEvent :=
  let fd := forceDisconnect acc.1 clientID
  (fd.1, acc.2 ++ fd.2)

/-- `closeAll`: best-effort force-disconnect of every registered client
at shutdown. -/
def closeAll (s : HubState) : HubState × List OutEvent :=
  s.clients.foldl closeAllStep (s, [])

/-- The hub's event alphabet: the three channels selected on by `Run`,
plus context cancellation. -/
inductive HubEvent where
  | register (clientID : String)
  | unregister (clientID : String)
  | inbound (clientID : String) (frame : Json)
  | shutdown

/-- One iteration of `Hub.Run`'s select loop. -/
def step (s : HubState) : HubEvent → HubState × List OutEvent
  | .register clientID => ({ s with clients := sinsert s.clients clientID }, [])
  | .unregister clientID => forceDisconnect s clientID
  | .inbound clientID frame => handleInbound s clientID frame
  | .shutdown => closeAll s

/-- The state after a sequence of hub events, from a fresh hub. -/
def runEvents (events : List HubEvent) : HubState :=
  events.foldl (fun s e => (step s e).1) hubNew

/-! ## Client tokenizer

Shallow embedding of `chat_tokenize_line` from
`chat-client/src/command_parser.c` (with `chat_consume_escape` and
`chat_skip_spaces`), over `List Char`.  Out-of-memory failures cannot
occur in the model; the two syntax errors are kept.  The outer while
loop is driven by a fuel counter fixed at `length + 1`: every iteration
of the C loop consumes at least one character of the cursor (the token
scanner returns a strictly shorter remainder whenever its input starts
with a non-space character or follows an opening quote), so the
zero-fuel branch is unreachable. -/

/-- C `isspace` (default locale): space, `\t`, `\n`, `\v`, `\f`,
`\r`. -/
def isSpaceChar (c : Char) : Bool :=
  c == ' ' || c == '\t' || c == '\n' || c == '\x0b' || c == '\x0c' || c == '\r'

/-- The escape mapping of `chat_consume_escape`: `\n`, `\t`, `\\`,
`\"` decode to their control characters; any other `\X` decodes to the
literal `X`. -/
def escDecode (c : Char) : Char :=
  match c with
  | 'n' => '\n'
  | 't' => '\t'
  | '\\' => '\\'
  | '"' => '"'
  | other => other

/-- `chat_skip_spaces`. -/
def skipSpaces : List Char → List Char
  | [] => []
  | c :: rest => if isSpaceChar c then skipSpaces rest else c :: rest

inductive TokenizeError where
  | unterminatedQuote
  | invalidEscape
  deriving DecidableEq, Repr

/-- The inner while loop of `chat_tokenize_line`: build one token
(characters accumulated in reverse in `acc`).  In order: end of input
(unterminated-quote error if still inside quotes); token break on
whitespace outside quotes (the cursor is left at the space, which the
caller's `chat_skip_spaces` consumes); backslash escape (error if the
backslash ends the input); closing quote; ordinary character append. -/
def scanToken (inQuotes : Bool) (acc : List Char) :
    List Char → Except TokenizeError (List Char × List Char)
  | [] =>
      if inQuotes then .error .unterminatedQuote else .ok (acc.reverse, [])
  | c :: rest =>
      if !inQuotes && isSpaceChar c then .ok (acc.reverse, c :: rest)
      else if c == '\\' then
        match rest with
        | [] => .error .invalidEscape
        | e :: rest2 => scanToken inQuotes (escDecode e :: acc) rest2
      else if inQuotes && c == '"' then .ok (acc.reverse, rest)
      else scanToken inQuotes (c :: acc) rest

/-- The outer while loop of `chat_tokenize_line`: skip spaces, detect an
opening quote, scan one token, repeat on the remaining cursor. -/
def tokenizeAux : Nat → List Char → Except TokenizeError (List (List Char))
  | 0, _ => .error .unterminatedQuote
  | fuel + 1, cursor =>
      match skipSpaces cursor with
      | [] => .ok []
      | c :: rest =>
          if c = '"' then
            match scanToken true [] rest with
            | .error e => .error e
            | .ok (tok, rem) =>
                match tokenizeAux fuel rem with
                | .error e => .error e
                | .ok toks => .ok (tok :: toks)
          else
            match scanToken false [] (c :: rest) with
            | .error e => .error e
            | .ok (tok, rem) =>
                match tokenizeAux fuel rem with
                | .error e => .error e
                | .ok toks => .ok (tok :: toks)

/-- `chat_tokenize_line`. -/
def tokenizeLine (line : List Char) : Except TokenizeError (List (List Char)) :=
  tokenizeAux (line.length + 1) line

/-! ## Invariants checked over the hub state -/

/-- Every room present in a rooms map has at least one member; together
with the trivial converse (a room absent from the map has no members to
speak of), this is the spec's "a room exists iff `members` is
non-empty". -/
def roomsOK (rooms : List (String × RoomState)) : Prop :=
  ∀ p ∈ rooms, p.2.members ≠ []

/-- Claim C1's reference invariant, stated over the live entries of each
map (the pairs its lookup returns) so that it is decidable on concrete
states: every ConnectionID recorded as a username owner, as a key of the
rooms-of-client index, or as a member of any room has a connection
record in `clients`.  (Room `invited` sets are deliberately absent: a
disconnect cleans them only for rooms the client had joined.) -/
def connRecordInvariant (s : HubState) : Prop :=
  (∀ p ∈ s.usernameOwner, mlookup s.usernameOwner p.1 = some p.2 →
    p.2 ∈ s.clients) ∧
  (∀ p ∈ s.clientRooms, mlookup s.clientRooms p.1 = some p.2 →
    p.1 ∈ s.clients) ∧
  (∀ p ∈ s.rooms, mlookup s.rooms p.1 = some p.2 →
    ∀ c ∈ p.2.members, c ∈ s.clients)

/-- The auxiliary structural invariants that make `connRecordInvariant`
inductive: room members are listed in the rooms-of-client index, the
username index and the per-client username map are mutually inverse,
room members are identified, and no rooms-of-client entry holds an
empty set. -/
def hubAuxInvariant (s : HubState) : Prop :=
  (∀ p ∈ s.rooms, mlookup s.rooms p.1 = some p.2 →
    ∀ c ∈ p.2.members, p.1 ∈ (mlookup s.clientRooms c).getD []) ∧
  (∀ p ∈ s.usernameOwner, mlookup s.usernameOwner p.1 = some p.2 →
    mlookup s.clientUser p.2 = some p.1) ∧
  (∀ p ∈ s.clientUser, mlookup s.clientUser p.1 = some p.2 →
    mlookup s.usernameOwner p.2 = some p.1) ∧
  (∀ p ∈ s.rooms, mlookup s.rooms p.1 = some p.2 →
    ∀ c ∈ p.2.members, mlookup s.clientUser c ≠ none) ∧
  (∀ p ∈ s.clientRooms, mlookup s.clientRooms p.1 = some p.2 → p.2 ≠ [])

/-- The same invariants in lookup form, convenient for induction. -/
structure HubInvL (s : HubState) : Prop where
  ownerConn : ∀ u c, mlookup s.usernameOwner u = some c → c ∈ s.clients
  idxConn : ∀ c rs, mlookup s.clientRooms c = some rs → c ∈ s.clients
  memConn : ∀ r rm, mlookup s.rooms r = some rm → ∀ c ∈ rm.members, c ∈ s.clients
  memListed : ∀ r rm, mlookup s.rooms r = some rm → ∀ c ∈ rm.members,
    ∃ rs, mlookup s.clientRooms c = some rs ∧ r ∈ rs
  ownerUser : ∀ u c, mlookup s.usernameOwner u = some c →
    mlookup s.clientUser c = some u
  userOwner : ∀ c u, mlookup s.clientUser c = some u →
    mlookup s.usernameOwner u = some c
  memIdent : ∀ r rm, mlookup s.rooms r = some rm → ∀ c ∈ rm.members,
    mlookup s.clientUser c ≠ none
  setsNE : ∀ c rs, mlookup s.clientRooms c = some rs → rs ≠ []

/-- Events whose sender still has a connection record: inbound frames
are delivered by a connection's reader between its register and its
unregister. -/
def eventFromRegistered (s : HubState) : HubEvent → Prop
  | .inbound clientID _ => clientID ∈ s.clients
  | _ => True

/-! ## Concrete frames and scenarios used as test inputs -/

/-- The bytes of `{"type":"IDENTIFY","username":u}` as a JSON value. -/
def identifyFrame (u : String) : Json :=
  .obj [("type", .str "IDENTIFY"), ("username", .str u)]

/-- The bytes of `{"type":"NEW_ROOM","roomname":r}` as a JSON value. -/
def newRoomFrame (r : String) : Json :=
  .obj [("type", .str "NEW_ROOM"), ("roomname", .str r)]

/-- The bytes of `{"type":"INVITE","roomname":r,"usernames":us}` as a
JSON value. -/
def inviteFrame (r : String) (us : List String) : Json :=
  .obj [("type", .str "INVITE"), ("roomname", .str r),
    ("usernames", .arr (us.map .str))]

/-- The bytes of `{"type":"USERS"}` as a JSON value. -/
def usersFrame : Json := .obj [("type", .str "USERS")]

/-- Scenario: alice and bob connect and identify; alice creates room
"r" and invites bob; then bob's connection is unregistered (socket
drop) without bob ever joining. -/
def staleInviteScenario : List HubEvent :=
  [.register "c1", .inbound "c1" (identifyFrame "alice"),
   .register "c2", .inbound "c2" (identifyFrame "bob"),
   .inbound "c1" (newRoomFrame "r"),
   .inbound "c1" (inviteFrame "r" ["bob"]),
   .unregister "c2"]

/-- A hub state in which `"c1"` is identified as `"alice"` and a second
connection `"c2"` is registered but unidentified. -/
def aliceOwnedState : HubState :=
  { clients := ["c1", "c2"], clientUser := [("c1", "alice")],
    clientStatus := [("c1", "ACTIVE")], usernameOwner := [("alice", "c1")],
    rooms := [], clientRooms := [] }

/-- A hub state with alice and bob identified and a room `"r"` whose
sole member is alice. -/
def inviteFixtureState : HubState :=
  { clients := ["c1", "c2"], clientUser := [("c1", "alice"), ("c2", "bob")],
    clientStatus := [("c1", "ACTIVE"), ("c2", "ACTIVE")],
    usernameOwner := [("alice", "c1"), ("bob", "c2")],
    rooms := [("r", { name := "r", members := ["c1"], invited := [] })],
    clientRooms := [("c1", ["r"])] }

/-! ## Theorems -/

/-! ### Association-list and set lemmas -/

theorem mlookup_mem {β : Type} {m : List (String × β)} {k : String} {v : β}
    (h : mlookup m k = some v) : (k, v) ∈ m := by
  induction m with
  | nil => simp [mlookup] at h
  | cons p rest ih =>
      obtain ⟨k', v'⟩ := p
      by_cases hk : k' = k
      · subst hk
        simp [mlookup] at h
        simp [h]
      · simp [mlookup, hk] at h
        exact List.mem_cons_of_mem _ (ih h)

theorem mlookup_merase_self {β : Type} (m : List (String × β)) (k : String) :
    mlookup (merase m k) k = none := by
  induction m with
  | nil => rfl
  | cons p rest ih =>
      obtain ⟨k', v'⟩ := p
      by_cases hk : k' = k
      · simp [merase, hk, ih]
      · simp [merase, hk, mlookup, ih]

theorem mlookup_merase_ne {β : Type} (m : List (String × β)) {k k' : String}
    (h : k' ≠ k) : mlookup (merase m k) k' = mlookup m k' := by
  induction m with
  | nil => rfl
  | cons p rest ih =>
      obtain ⟨ka, va⟩ := p
      by_cases hk : ka = k
      · subst hk
        simp [merase, mlookup, Ne.symm h, ih]
      · simp [merase, hk, mlookup, ih]

theorem mlookup_minsert_self {β : Type} (m : List (String × β)) (k : String)
    (v : β) : mlookup (minsert m k v) k = some v := by
  simp [minsert, mlookup]

theorem mlookup_minsert_ne {β : Type} (m : List (String × β)) {k k' : String}
    (v : β) (h : k' ≠ k) :
    mlookup (minsert m k v) k' = mlookup m k' := by
  simp [minsert, mlookup, Ne.symm h, mlookup_merase_ne m h]

theorem mem_serase {s : List String} {x y : String} :
    x ∈ serase s y ↔ x ∈ s ∧ x ≠ y := by
  simp [serase, List.mem_filter, bne_iff_ne]

theorem mem_sinsert {s : List String} {x y : String} :
    x ∈ sinsert s y ↔ x = y ∨ x ∈ s := by
  by_cases h : y ∈ s
  · constructor
    · intro hx
      simp [sinsert, h] at hx
      exact Or.inr hx
    · intro hx
      rcases hx with hx | hx
      · simp [sinsert, h, hx]
      · simp [sinsert, h, hx]
  · simp [sinsert, h, List.mem_cons]

/-! ### C3: server-side IDENTIFY username validation -/

/-- Claim C3, behaviour at the failing input: `handleIdentify` checks only
that `len(request.Username)` is between 1 and `MaxUsernameLength`; the
character set is never inspected.  An IDENTIFY with username `"a b"`
(which contains a space, violating the spec's printable non-whitespace
rule) is therefore accepted: the user is created with status ACTIVE and
answered `RESPONSE{IDENTIFY, SUCCESS}`, instead of the claimed
`RESPONSE{INVALID, INVALID}` plus forced disconnect. -/
theorem c3_identify_accepts_space_username :
    (step (runEvents [.register "c1"]) (.inbound "c1" (identifyFrame "a b"))).2
        = [.send "c1" (.response "IDENTIFY" "SUCCESS" "a b")] ∧
      mlookup (runEvents [.register "c1", .inbound "c1" (identifyFrame "a b")]).clientUser
        "c1" = some "a b" ∧
      mlookup (runEvents [.register "c1", .inbound "c1" (identifyFrame "a b")]).clientStatus
        "c1" = some "ACTIVE" ∧
      "c1" ∈ (runEvents [.register "c1", .inbound "c1" (identifyFrame "a b")]).clients := by
  refine ⟨?_, ?_, ?_, ?_⟩ <;> decide

/-! ### C10: username uniqueness is exact and case-sensitive -/

/-- Helper: a string of positive byte length is non-empty. -/
theorem strLen_pos_ne_empty {u : String} (h : 1 ≤ strLen u) : u ≠ "" := by
  intro hu
  subst hu
  exact absurd h (by decide)

/-- Helper: `DecodeIdentify` on a well-formed IDENTIFY frame. -/
theorem decodeIdentify_frame (u : String) (hu : u ≠ "") :
    DecodeIdentify ⟨"IDENTIFY", identifyFrame u⟩
      = .ok { type := "IDENTIFY", username := u } := by
  simp [DecodeIdentify, identifyFrame, getStringField, jlookup, hu, Bind.bind,
    Except.bind]

/-- Claim C10: at IDENTIFY, uniqueness is decided by `usernameOwner`
lookup on the exact username string.  For any hub state and any
length-valid username `u`: if no entry for the exact string `u` exists,
identification succeeds and creates the user (so `"Alice"` while
`"alice"` is owned creates a second, distinct user — string equality is
byte equality, hence case-sensitive); `USER_ALREADY_EXISTS` is answered,
with no state change, exactly when the requested string is owned. -/
theorem c10_identify_exact_uniqueness (s : HubState) (c u : String)
    (hreg : c ∈ s.clients) (h1 : 1 ≤ strLen u) (h8 : strLen u ≤ maxUsernameLength) :
    (mlookup s.usernameOwner u = none →
        mlookup (handleIdentify s c ⟨"IDENTIFY", identifyFrame u⟩).1.clientUser c
            = some u ∧
          mlookup (handleIdentify s c ⟨"IDENTIFY", identifyFrame u⟩).1.usernameOwner u
            = some c ∧
          (handleIdentify s c ⟨"IDENTIFY", identifyFrame u⟩).2.head?
            = some (.send c (.response "IDENTIFY" "SUCCESS" u))) ∧
      (∀ owner, mlookup s.usernameOwner u = some owner →
        handleIdentify s c ⟨"IDENTIFY", identifyFrame u⟩
          = (s, [.send c (.response "IDENTIFY" "USER_ALREADY_EXISTS" u)])) := by
  have hu : u ≠ "" := strLen_pos_ne_empty h1
  have hlen : ¬(strLen u = 0 ∨ maxUsernameLength < strLen u) := by omega
  constructor
  · intro hnone
    simp [handleIdentify, decodeIdentify_frame u hu, hlen, hnone,
      mlookup_minsert_self, sendFrame, hreg]
  · intro owner howner
    simp [handleIdentify, decodeIdentify_frame u hu, hlen, howner, sendFrame, hreg]

/-- Claim C10 witness: with `"alice"` owned by `"c1"`, an IDENTIFY for
`"Alice"` from `"c2"` succeeds and creates a second user, while an
IDENTIFY for the byte-identical `"alice"` is refused with
`USER_ALREADY_EXISTS` and no state change. -/
theorem c10_identify_exact_uniqueness_witness :
    (mlookup (handleIdentify aliceOwnedState "c2"
            ⟨"IDENTIFY", identifyFrame "Alice"⟩).1.clientUser "c2" = some "Alice" ∧
      mlookup (handleIdentify aliceOwnedState "c2"
            ⟨"IDENTIFY", identifyFrame "Alice"⟩).1.usernameOwner "Alice" = some "c2" ∧
      (handleIdentify aliceOwnedState "c2" ⟨"IDENTIFY", identifyFrame "Alice"⟩).2.head?
        = some (.send "c2" (.response "IDENTIFY" "SUCCESS" "Alice"))) ∧
      handleIdentify aliceOwnedState "c2" ⟨"IDENTIFY", identifyFrame "alice"⟩
        = (aliceOwnedState,
          [.send "c2" (.response "IDENTIFY" "USER_ALREADY_EXISTS" "alice")]) := by
  constructor
  · exact (c10_identify_exact_uniqueness aliceOwnedState "c2" "Alice" (by decide)
      (by decide) (by decide)).1 (by decide)
  · exact (c10_identify_exact_uniqueness aliceOwnedState "c2" "alice" (by decide)
      (by decide) (by decide)).2 "c1" (by decide)

/-- Helper: in `p ++ [10]` with no byte 10 in `p`, the first newline is at
index `p.length`. -/
theorem findIdx_newline_append (p : List Nat) (hp : (10 : Nat) ∉ p) :
    (p ++ [10]).findIdx? (· = 10) = some p.length := by
  induction p with
  | nil => rfl
  | cons a as ih =>
      have ha : a ≠ 10 := fun h => hp (h ▸ List.mem_cons_self a as)
      have has : (10 : Nat) ∉ as := fun h => hp (List.mem_cons_of_mem a h)
      simp only [List.cons_append, List.findIdx?_cons, List.length_cons]
      have : (a = 10) = False := by simp [ha]
      simp [decide_eq_false_iff_not.mpr ha, ih has, Nat.add_comm]

theorem dropCR_of_no_cr (p : List Nat) (h : p.getLast? ≠ some 13) :
    dropCR p = p := by
  simp [dropCR, h]

/-- Helper: reading a stream that is exactly one written frame. -/
theorem readFrame_of_written (cap : Nat) (p : List Nat) (hp : (10 : Nat) ∉ p)
    (hlen : p.length < cap) :
    readFrame cap (p ++ [10]) = .ok (dropCR p, []) := by
  have hfind := findIdx_newline_append p hp
  have hdrop : (p ++ [10]).drop (p.length + 1) = [] := by
    have hl : (p ++ [10]).length = p.length + 1 := by simp
    rw [← hl, List.drop_length]
  simp [readFrame, hfind, hlen, List.take_left, hdrop]

/-- Claim C2, counterexample: the payload `[0x61, 0x0D]` ("a\r") contains no
newline byte, yet the write/read round trip returns `[0x61]` — the
`bufio.ScanLines` split function used by `ReadFrame` strips the trailing
carriage return, so the payload is not returned unchanged. -/
theorem c2_roundtrip_counterexample :
    (10 : Nat) ∉ [97, 13] ∧ frameRoundTrip [97, 13] = some [97] ∧
      frameRoundTrip [97, 13] ≠ some [97, 13] := by
  refine ⟨by decide, ?_, ?_⟩ <;> decide

/-- Claim C2 (amended): for every payload `P` with no `'\n'` byte, shorter
than the frame cap, and not ending in `'\r'`, writing `P` with `WriteFrame`
and reading the stream back with `ReadFrame` yields exactly `P`; the
delimiter is appended on write and not returned.  (The amendment excludes
payloads ending in `'\r'`, which lose that byte to `ScanLines`, and
payloads at or above the cap, which fail `FrameTooLarge`.) -/
theorem c2_write_read_roundtrip (p : List Nat) (hnl : (10 : Nat) ∉ p)
    (hlen : p.length < defaultMaxFrameBytes) (hcr : p.getLast? ≠ some 13) :
    frameRoundTrip p = some p := by
  simp [frameRoundTrip, writeFrame, readFrame_of_written _ p hnl hlen,
    dropCR_of_no_cr p hcr]

/-- Claim C2 witness: the round trip preserves the concrete payload
`[0x68, 0x69]` ("hi"). -/
theorem c2_write_read_roundtrip_witness :
    frameRoundTrip [104, 105] = some [104, 105] :=
  c2_write_read_roundtrip [104, 105] (by decide) (by decide) (by decide)

/-- Helper: a run of `'a'` bytes contains no newline byte. -/
theorem newline_not_mem_replicate (n : Nat) : (10 : Nat) ∉ List.replicate n 97 := by
  intro h
  have := List.eq_of_mem_replicate h
  omega

/-- Helper: a non-empty run of `'a'` bytes does not end in `'\r'`. -/
theorem replicate_getLast_ne_cr (n : Nat) :
    (List.replicate n (97 : Nat)).getLast? ≠ some 13 := by
  intro h
  obtain ⟨hne, heq⟩ := List.mem_getLast?_eq_getLast h
  have hmem : (13 : Nat) ∈ List.replicate n 97 := heq ▸ List.getLast_mem hne
  have := List.eq_of_mem_replicate hmem
  omega

/-- Helper: a frame whose payload reaches the buffer cap fails. -/
theorem readFrame_too_large (cap : Nat) (p : List Nat) (hp : (10 : Nat) ∉ p)
    (hlen : cap ≤ p.length) :
    readFrame cap (p ++ [10]) = .error .frameTooLarge := by
  have hfind := findIdx_newline_append p hp
  simp [readFrame, hfind, Nat.not_lt.mpr hlen]

/-- Helper: reading an exhausted stream reports a clean close. -/
theorem readFrame_nil (cap : Nat) (hcap : 0 < cap) :
    readFrame cap [] = .error .eof := by
  unfold readFrame
  simp only [List.findIdx?_nil, List.length_nil]
  rw [if_neg (by omega), if_pos trivial]

/-- Claim C6: behaviour of `ReadFrame` at the default cap (65536 bytes).
A frame whose payload is exactly 65536 bytes fails with `FrameTooLarge`
(the scanner's buffer, capped at `maxFrameBytes`, can never hold the
payload plus its delimiter); a payload of 65535 bytes (cap − 1) is the
largest that succeeds; and a cleanly closed (empty) stream yields `EOF`.
This contradicts the claim that a payload of exactly the cap size is
returned successfully: the effective payload limit is `cap − 1`. -/
theorem c6_readFrame_cap_behaviour :
    readFrame defaultMaxFrameBytes (List.replicate 65536 97 ++ [10]) =
        .error .frameTooLarge ∧
      readFrame defaultMaxFrameBytes (List.replicate 65535 97 ++ [10]) =
        .ok (List.replicate 65535 97, []) ∧
      readFrame defaultMaxFrameBytes ([] : List Nat) = .error .eof := by
  refine ⟨?_, ?_, readFrame_nil _ (by decide)⟩
  · exact readFrame_too_large defaultMaxFrameBytes (List.replicate 65536 97)
      (newline_not_mem_replicate 65536)
      (by rw [List.length_replicate]; exact Nat.le_refl _)
  · rw [readFrame_of_written defaultMaxFrameBytes (List.replicate 65535 97)
      (newline_not_mem_replicate 65535) (by rw [List.length_replicate]; exact (by omega : (65535:Nat) < 65536)),
      dropCR_of_no_cr _ (replicate_getLast_ne_cr 65535)]


/-! ### C5: identify-gate for unidentified connections -/

/-- Claim C5: an inbound frame from a registered but unidentified
connection whose envelope decodes with a type other than IDENTIFY is
answered with `RESPONSE{INVALID, NOT_IDENTIFIED}` followed by the close
of the writer, and every hub map is left without an entry for that
ConnectionID (the rooms hypothesis states what the invariants guarantee
for unidentified connections: they are in no room's member or invited
set). -/
theorem c5_unidentified_rejected_and_removed (s : HubState) (c : String)
    (frame : Json) (env : Envelope)
    (hreg : c ∈ s.clients)
    (hunid : mlookup s.clientUser c = none)
    (hdec : DecodeEnvelope frame = .ok env)
    (htype : env.type ≠ "IDENTIFY")
    (hrooms : ∀ p ∈ s.rooms, c ∉ p.2.members ∧ c ∉ p.2.invited) :
    (handleInbound s c frame).2
        = [.send c (.response "INVALID" "NOT_IDENTIFIED" ""), .close c] ∧
      c ∉ (handleInbound s c frame).1.clients ∧
      mlookup (handleInbound s c frame).1.clientUser c = none ∧
      mlookup (handleInbound s c frame).1.clientStatus c = none ∧
      mlookup (handleInbound s c frame).1.clientRooms c = none ∧
      ∀ p ∈ (handleInbound s c frame).1.rooms, c ∉ p.2.members ∧ c ∉ p.2.invited := by
  have hmain : handleInbound s c frame
      = sendInvalidAndDisconnect s c "INVALID" "NOT_IDENTIFIED" := by
    simp [handleInbound, hdec, hunid, htype]
  rw [hmain]
  have hsid : sendInvalidAndDisconnect s c "INVALID" "NOT_IDENTIFIED"
      = ({ s with
            clientRooms := merase s.clientRooms c,
            clients := serase s.clients c,
            clientUser := merase s.clientUser c,
            clientStatus := merase s.clientStatus c },
          [.send c (.response "INVALID" "NOT_IDENTIFIED" ""), .close c]) := by
    simp [sendInvalidAndDisconnect, sendFrame, forceDisconnect, hreg, hunid]
  rw [hsid]
  refine ⟨rfl, ?_, mlookup_merase_self _ _, mlookup_merase_self _ _,
    mlookup_merase_self _ _, ?_⟩
  · intro hmem
    exact (mem_serase.mp hmem).2 rfl
  · exact hrooms

/-- Claim C5 witness: in `aliceOwnedState`, the unidentified connection
`"c2"` sending `{"type":"USERS"}` is answered
`RESPONSE{INVALID, NOT_IDENTIFIED}`, its writer is closed, and no hub
state remains for it. -/
theorem c5_unidentified_rejected_and_removed_witness :
    (handleInbound aliceOwnedState "c2" usersFrame).2
        = [.send "c2" (.response "INVALID" "NOT_IDENTIFIED" ""), .close "c2"] ∧
      "c2" ∉ (handleInbound aliceOwnedState "c2" usersFrame).1.clients ∧
      mlookup (handleInbound aliceOwnedState "c2" usersFrame).1.clientUser "c2" = none ∧
      mlookup (handleInbound aliceOwnedState "c2" usersFrame).1.clientStatus "c2" = none ∧
      mlookup (handleInbound aliceOwnedState "c2" usersFrame).1.clientRooms "c2" = none ∧
      ∀ p ∈ (handleInbound aliceOwnedState "c2" usersFrame).1.rooms,
        "c2" ∉ p.2.members ∧ "c2" ∉ p.2.invited :=
  c5_unidentified_rejected_and_removed aliceOwnedState "c2" usersFrame
    ⟨"USERS", usersFrame⟩ (by decide) (by decide) rfl (by decide) (by decide)

/-! ### C4: INVITE aborts on the first unknown target -/

/-- Helper: the target-resolution loop fails with some unknown username
whenever one of the targets is unowned, before resolving anything. -/
theorem resolveTargets_error_of_missing (o : List (String × String))
    (ts : List String) (h : ∃ t ∈ ts, mlookup o t = none) :
    ∃ t, resolveTargets o ts = .error t ∧ t ∈ ts ∧ mlookup o t = none := by
  induction ts with
  | nil => simp at h
  | cons a rest ih =>
      cases ha : mlookup o a with
      | none => exact ⟨a, by simp [resolveTargets, ha], by simp, ha⟩
      | some targetID =>
          have hrest : ∃ t ∈ rest, mlookup o t = none := by
            rcases h with ⟨t, ht, hn⟩
            rcases List.mem_cons.mp ht with rfl | htr
            · rw [ha] at hn
              exact absurd hn (by simp)
            · exact ⟨t, htr, hn⟩
          obtain ⟨t, he, htr, hn⟩ := ih hrest
          exact ⟨t, by simp [resolveTargets, ha, he],
            List.mem_cons_of_mem _ htr, hn⟩

/-- Claim C4: an INVITE from a member of an existing room with some
unknown target username yields exactly one
`RESPONSE{INVITE, NO_SUCH_USER, extra=<unknown username>}` to the
sender, and nothing else: the hub state is returned unchanged (no target
is added to `invited`) and no `INVITATION` frame is emitted. -/
theorem c4_invite_unknown_target_aborts (s : HubState) (c u : String)
    (env : Envelope) (req : InviteRequest)
    (hreg : c ∈ s.clients)
    (hdec : DecodeInvite env = .ok req)
    (h1 : 1 ≤ strLen req.roomname) (h16 : strLen req.roomname ≤ maxRoomNameLength)
    (room : RoomState) (hroom : mlookup s.rooms req.roomname = some room)
    (hmem : c ∈ room.members)
    (hmiss : ∃ t ∈ req.usernames, mlookup s.usernameOwner t = none) :
    ∃ t ∈ req.usernames, mlookup s.usernameOwner t = none ∧
      handleInvite s c u env
        = (s, [.send c (.response "INVITE" "NO_SUCH_USER" t)]) := by
  obtain ⟨t, he, htr, hn⟩ := resolveTargets_error_of_missing s.usernameOwner
    req.usernames hmiss
  have hlen : ¬(strLen req.roomname = 0 ∨ maxRoomNameLength < strLen req.roomname) := by
    omega
  refine ⟨t, htr, hn, ?_⟩
  simp [handleInvite, hdec, hlen, hroom, hmem, he, sendFrame, hreg]

/-- Claim C4 witness: alice, the sole member of room `"r"`, invites the
unknown username `"ghost"`; she receives exactly
`RESPONSE{INVITE, NO_SUCH_USER, ghost}` and the state is unchanged. -/
theorem c4_invite_unknown_target_aborts_witness :
    ∃ t ∈ ["ghost"], mlookup inviteFixtureState.usernameOwner t = none ∧
      handleInvite inviteFixtureState "c1" "alice"
          ⟨"INVITE", inviteFrame "r" ["ghost"]⟩
        = (inviteFixtureState,
          [.send "c1" (.response "INVITE" "NO_SUCH_USER" t)]) :=
  c4_invite_unknown_target_aborts inviteFixtureState "c1" "alice"
    ⟨"INVITE", inviteFrame "r" ["ghost"]⟩
    { type := "INVITE", roomname := "r", usernames := ["ghost"] }
    (by decide) rfl (by decide) (by decide)
    { name := "r", members := ["c1"], invited := [] } (by decide) (by decide)
    ⟨"ghost", by decide, by decide⟩

/-! ### C1: connection-record invariant and stale invitations -/

/-- Claim C1, counterexample: in the stale-invite scenario (alice creates
room `"r"`, invites bob, bob disconnects without joining), after the
final hub event bob's ConnectionID `"c2"` still sits in the room's
`invited` set although no connection record for it remains:
`forceDisconnect` cleans `invited` only for rooms listed in
`clientRooms`, i.e. rooms the client had joined. -/
theorem c1_stale_invite_counterexample :
    "c2" ∉ (runEvents staleInviteScenario).clients ∧
      mlookup (runEvents staleInviteScenario).rooms "r"
        = some { name := "r", members := ["c1"], invited := ["c2"] } ∧
      "c2" ∈ ({ name := "r", members := ["c1"], invited := ["c2"] } : RoomState).invited := by
  refine ⟨by decide, by decide, by decide⟩


/-! ### C9: unrecognized JSON fields are ignored by strict decoding -/

/-- Helper: unmarshalling a JSON array of strings. -/
theorem decodeStringArray_strings (us : List String) :
    decodeStringArray (us.map .str) = .ok us := by
  induction us with
  | nil => rfl
  | cons a rest ih => simp [decodeStringArray, ih, Except.map]

/-- Claim C9: every per-type strict decoder accepts a JSON object that
carries the correct type literal and valid required fields together with
arbitrary additional fields whose keys are not among the recognized ones
— `encoding/json` unmarshalling reads only the struct's tagged keys, so
the extra fields are ignored and decoding succeeds with the same result
(no protocol violation). -/
theorem c9_decoders_ignore_unknown_fields :
    (∀ (u : String) (extras : List (String × Json)), u ≠ "" →
      (∀ p ∈ extras, p.1 ≠ "type" ∧ p.1 ≠ "username") →
      DecodeIdentify ⟨"IDENTIFY",
          .obj (("type", .str "IDENTIFY") :: ("username", .str u) :: extras)⟩
        = .ok { type := "IDENTIFY", username := u }) ∧
    (∀ (st : String) (extras : List (String × Json)),
      st = "ACTIVE" ∨ st = "AWAY" ∨ st = "BUSY" →
      (∀ p ∈ extras, p.1 ≠ "type" ∧ p.1 ≠ "status") →
      DecodeStatus ⟨"STATUS",
          .obj (("type", .str "STATUS") :: ("status", .str st) :: extras)⟩
        = .ok { type := "STATUS", status := st }) ∧
    (∀ (extras : List (String × Json)), (∀ p ∈ extras, p.1 ≠ "type") →
      DecodeUsers ⟨"USERS", .obj (("type", .str "USERS") :: extras)⟩ = .ok ()) ∧
    (∀ (u x : String) (extras : List (String × Json)), u ≠ "" → x ≠ "" →
      (∀ p ∈ extras, p.1 ≠ "type" ∧ p.1 ≠ "username" ∧ p.1 ≠ "text") →
      DecodeText ⟨"TEXT",
          .obj (("type", .str "TEXT") :: ("username", .str u) :: ("text", .str x)
            :: extras)⟩
        = .ok { type := "TEXT", username := u, text := x }) ∧
    (∀ (x : String) (extras : List (String × Json)), x ≠ "" →
      (∀ p ∈ extras, p.1 ≠ "type" ∧ p.1 ≠ "text") →
      DecodePublicText ⟨"PUBLIC_TEXT",
          .obj (("type", .str "PUBLIC_TEXT") :: ("text", .str x) :: extras)⟩
        = .ok { type := "PUBLIC_TEXT", text := x }) ∧
    (∀ (r : String) (extras : List (String × Json)), r ≠ "" →
      (∀ p ∈ extras, p.1 ≠ "type" ∧ p.1 ≠ "roomname") →
      DecodeNewRoom ⟨"NEW_ROOM",
          .obj (("type", .str "NEW_ROOM") :: ("roomname", .str r) :: extras)⟩
        = .ok { type := "NEW_ROOM", roomname := r }) ∧
    (∀ (r : String) (us : List String) (extras : List (String × Json)),
      r ≠ "" → us ≠ [] → (∀ u ∈ us, u ≠ "") →
      (∀ p ∈ extras, p.1 ≠ "type" ∧ p.1 ≠ "roomname" ∧ p.1 ≠ "usernames") →
      DecodeInvite ⟨"INVITE",
          .obj (("type", .str "INVITE") :: ("roomname", .str r)
            :: ("usernames", .arr (us.map .str)) :: extras)⟩
        = .ok { type := "INVITE", roomname := r, usernames := us }) ∧
    (∀ (r : String) (extras : List (String × Json)), r ≠ "" →
      (∀ p ∈ extras, p.1 ≠ "type" ∧ p.1 ≠ "roomname") →
      DecodeJoinRoom ⟨"JOIN_ROOM",
          .obj (("type", .str "JOIN_ROOM") :: ("roomname", .str r) :: extras)⟩
        = .ok { type := "JOIN_ROOM", roomname := r }) ∧
    (∀ (r : String) (extras : List (String × Json)), r ≠ "" →
      (∀ p ∈ extras, p.1 ≠ "type" ∧ p.1 ≠ "roomname") →
      DecodeRoomUsers ⟨"ROOM_USERS",
          .obj (("type", .str "ROOM_USERS") :: ("roomname", .str r) :: extras)⟩
        = .ok { type := "ROOM_USERS", roomname := r }) ∧
    (∀ (r x : String) (extras : List (String × Json)), r ≠ "" → x ≠ "" →
      (∀ p ∈ extras, p.1 ≠ "type" ∧ p.1 ≠ "roomname" ∧ p.1 ≠ "text") →
      DecodeRoomText ⟨"ROOM_TEXT",
          .obj (("type", .str "ROOM_TEXT") :: ("roomname", .str r)
            :: ("text", .str x) :: extras)⟩
        = .ok { type := "ROOM_TEXT", roomname := r, text := x }) ∧
    (∀ (r : String) (extras : List (String × Json)), r ≠ "" →
      (∀ p ∈ extras, p.1 ≠ "type" ∧ p.1 ≠ "roomname") →
      DecodeLeaveRoom ⟨"LEAVE_ROOM",
          .obj (("type", .str "LEAVE_ROOM") :: ("roomname", .str r) :: extras)⟩
        = .ok { type := "LEAVE_ROOM", roomname := r }) ∧
    (∀ (extras : List (String × Json)), (∀ p ∈ extras, p.1 ≠ "type") →
      DecodeDisconnect ⟨"DISCONNECT", .obj (("type", .str "DISCONNECT") :: extras)⟩
        = .ok ()) := by
  refine ⟨?_, ?_, ?_, ?_, ?_, ?_, ?_, ?_, ?_, ?_, ?_, ?_⟩
  · intro u extras hu _
    simp [DecodeIdentify, getStringField, jlookup, hu, Bind.bind, Except.bind]
  · intro st extras hst _
    rcases hst with rfl | rfl | rfl <;>
      simp [DecodeStatus, getStringField, jlookup, Bind.bind, Except.bind]
  · intro extras _
    simp [DecodeUsers, getStringField, jlookup, Bind.bind, Except.bind]
  · intro u x extras hu hx _
    simp [DecodeText, getStringField, jlookup, hu, hx, Bind.bind, Except.bind]
  · intro x extras hx _
    simp [DecodePublicText, getStringField, jlookup, hx, Bind.bind, Except.bind]
  · intro r extras hr _
    simp [DecodeNewRoom, getStringField, jlookup, hr, Bind.bind, Except.bind]
  · intro r us extras hr hus hne _
    have h0 : "" ∉ us := fun hmem => hne "" hmem rfl
    simp [DecodeInvite, getStringField, getStringArrayField, jlookup, hr, hus,
      h0, decodeStringArray_strings, Bind.bind, Except.bind]
  · intro r extras hr _
    simp [DecodeJoinRoom, decodeRoomOnly, getStringField, jlookup, hr,
      Bind.bind, Except.bind]
  · intro r extras hr _
    simp [DecodeRoomUsers, decodeRoomOnly, getStringField, jlookup, hr,
      Bind.bind, Except.bind]
  · intro r x extras hr hx _
    simp [DecodeRoomText, getStringField, jlookup, hr, hx, Bind.bind, Except.bind]
  · intro r extras hr _
    simp [DecodeLeaveRoom, decodeRoomOnly, getStringField, jlookup, hr,
      Bind.bind, Except.bind]
  · intro extras _
    simp [DecodeDisconnect, getStringField, jlookup, Bind.bind, Except.bind]

/-- Claim C9 witness: each decoder evaluated on a frame carrying one
extra unrecognized field `"x": null`. -/
theorem c9_decoders_ignore_unknown_fields_witness :
    DecodeIdentify ⟨"IDENTIFY",
        .obj [("type", .str "IDENTIFY"), ("username", .str "alice"), ("x", .null)]⟩
      = .ok { type := "IDENTIFY", username := "alice" } ∧
    DecodeStatus ⟨"STATUS",
        .obj [("type", .str "STATUS"), ("status", .str "AWAY"), ("x", .null)]⟩
      = .ok { type := "STATUS", status := "AWAY" } ∧
    DecodeUsers ⟨"USERS", .obj [("type", .str "USERS"), ("x", .null)]⟩ = .ok () ∧
    DecodeText ⟨"TEXT",
        .obj [("type", .str "TEXT"), ("username", .str "bob"), ("text", .str "hi"),
          ("x", .null)]⟩
      = .ok { type := "TEXT", username := "bob", text := "hi" } ∧
    DecodePublicText ⟨"PUBLIC_TEXT",
        .obj [("type", .str "PUBLIC_TEXT"), ("text", .str "hi"), ("x", .null)]⟩
      = .ok { type := "PUBLIC_TEXT", text := "hi" } ∧
    DecodeNewRoom ⟨"NEW_ROOM",
        .obj [("type", .str "NEW_ROOM"), ("roomname", .str "r"), ("x", .null)]⟩
      = .ok { type := "NEW_ROOM", roomname := "r" } ∧
    DecodeInvite ⟨"INVITE",
        .obj [("type", .str "INVITE"), ("roomname", .str "r"),
          ("usernames", .arr [.str "bob"]), ("x", .null)]⟩
      = .ok { type := "INVITE", roomname := "r", usernames := ["bob"] } ∧
    DecodeJoinRoom ⟨"JOIN_ROOM",
        .obj [("type", .str "JOIN_ROOM"), ("roomname", .str "r"), ("x", .null)]⟩
      = .ok { type := "JOIN_ROOM", roomname := "r" } ∧
    DecodeRoomUsers ⟨"ROOM_USERS",
        .obj [("type", .str "ROOM_USERS"), ("roomname", .str "r"), ("x", .null)]⟩
      = .ok { type := "ROOM_USERS", roomname := "r" } ∧
    DecodeRoomText ⟨"ROOM_TEXT",
        .obj [("type", .str "ROOM_TEXT"), ("roomname", .str "r"),
          ("text", .str "hi"), ("x", .null)]⟩
      = .ok { type := "ROOM_TEXT", roomname := "r", text := "hi" } ∧
    DecodeLeaveRoom ⟨"LEAVE_ROOM",
        .obj [("type", .str "LEAVE_ROOM"), ("roomname", .str "r"), ("x", .null)]⟩
      = .ok { type := "LEAVE_ROOM", roomname := "r" } ∧
    DecodeDisconnect ⟨"DISCONNECT",
        .obj [("type", .str "DISCONNECT"), ("x", .null)]⟩
      = .ok () := by
  have h := c9_decoders_ignore_unknown_fields
  exact ⟨h.1 "alice" [("x", .null)] (by decide) (by decide),
    h.2.1 "AWAY" [("x", .null)] (by simp) (by decide),
    h.2.2.1 [("x", .null)] (by decide),
    h.2.2.2.1 "bob" "hi" [("x", .null)] (by decide) (by decide) (by decide),
    h.2.2.2.2.1 "hi" [("x", .null)] (by decide) (by decide),
    h.2.2.2.2.2.1 "r" [("x", .null)] (by decide) (by decide),
    h.2.2.2.2.2.2.1 "r" ["bob"] [("x", .null)] (by decide) (by decide)
      (by decide) (by decide),
    h.2.2.2.2.2.2.2.1 "r" [("x", .null)] (by decide) (by decide),
    h.2.2.2.2.2.2.2.2.1 "r" [("x", .null)] (by decide) (by decide),
    h.2.2.2.2.2.2.2.2.2.1 "r" "hi" [("x", .null)] (by decide) (by decide)
      (by decide),
    h.2.2.2.2.2.2.2.2.2.2.1 "r" [("x", .null)] (by decide) (by decide),
    h.2.2.2.2.2.2.2.2.2.2.2 [("x", .null)] (by decide)⟩


/-! ### C7: no room ever has empty membership -/

theorem mem_merase_imp {β : Type} {m : List (String × β)} {k : String}
    {p : String × β} (hp : p ∈ merase m k) : p ∈ m ∧ p.1 ≠ k := by
  induction m with
  | nil => simp [merase] at hp
  | cons q rest ih =>
      obtain ⟨ka, va⟩ := q
      by_cases hk : ka = k
      · subst hk
        rw [merase, if_pos rfl] at hp
        exact ⟨List.mem_cons_of_mem _ (ih hp).1, (ih hp).2⟩
      · rw [merase, if_neg hk] at hp
        rcases List.mem_cons.mp hp with rfl | hp2
        · exact ⟨List.mem_cons_self _ _, hk⟩
        · exact ⟨List.mem_cons_of_mem _ (ih hp2).1, (ih hp2).2⟩

theorem mem_minsert_cases {β : Type} {m : List (String × β)} {k : String}
    {v : β} {p : String × β} (hp : p ∈ minsert m k v) :
    p = (k, v) ∨ p ∈ m := by
  rcases List.mem_cons.mp hp with h | h
  · exact Or.inl h
  · exact Or.inr (mem_merase_imp h).1

theorem sinsert_ne_nil (l : List String) (x : String) : sinsert l x ≠ [] := by
  by_cases hx : x ∈ l
  · simp only [sinsert, if_pos hx]
    exact List.ne_nil_of_mem hx
  · simp [sinsert, hx]

theorem roomsOK_merase {m : List (String × RoomState)} {k : String}
    (h : roomsOK m) : roomsOK (merase m k) :=
  fun p hp => h p (mem_merase_imp hp).1

theorem roomsOK_minsert {m : List (String × RoomState)} {k : String}
    {room : RoomState} (h : roomsOK m) (hr : room.members ≠ []) :
    roomsOK (minsert m k room) := by
  intro p hp
  rcases mem_minsert_cases hp with rfl | hm
  · exact hr
  · exact h p hm

theorem roomsOK_deleteRoomIfEmpty (s : HubState) (name : String)
    (h : roomsOK s.rooms) : roomsOK (deleteRoomIfEmpty s name).rooms := by
  unfold deleteRoomIfEmpty
  split
  · split
    · exact roomsOK_merase h
    · exact h
  · exact h

/-- Writing a room back and immediately applying `deleteRoomIfEmpty`
keeps every surviving room non-empty. -/
theorem roomsOK_insertThenDelete (s2 : HubState) (base : List (String × RoomState))
    (name : String) (room : RoomState)
    (hrooms : s2.rooms = minsert base name room) (h : roomsOK base) :
    roomsOK (deleteRoomIfEmpty s2 name).rooms := by
  by_cases hm : room.members = []
  · unfold deleteRoomIfEmpty
    rw [hrooms, mlookup_minsert_self]
    simp only [hm, if_pos rfl]
    intro p hp
    have h1 := mem_merase_imp hp
    rcases mem_minsert_cases h1.1 with rfl | hm2
    · exact absurd rfl h1.2
    · exact h p hm2
  · have : roomsOK s2.rooms := by
      rw [hrooms]
      exact roomsOK_minsert h hm
    exact roomsOK_deleteRoomIfEmpty s2 name this

theorem roomsOK_leaveFold (c u : String) (names : List String) :
    ∀ acc : HubState × List OutEvent, roomsOK acc.1.rooms →
      roomsOK ((names.foldl (leaveRoomStep c u) acc).1).rooms := by
  induction names with
  | nil => exact fun acc h => h
  | cons n rest ih =>
      intro acc h
      rw [List.foldl_cons]
      apply ih
      unfold leaveRoomStep
      split
      · exact h
      · exact roomsOK_insertThenDelete _ acc.1.rooms n _ rfl h

theorem roomsOK_leaveAll (s : HubState) (c u : String) (h : roomsOK s.rooms) :
    roomsOK (leaveAllJoinedRoomsWithNotification s c u).1.rooms := by
  unfold leaveAllJoinedRoomsWithNotification
  split
  · exact h
  · split
    · exact h
    · exact roomsOK_leaveFold c u _ (s, []) h

theorem roomsOK_forceDisconnect (s : HubState) (c : String) (h : roomsOK s.rooms) :
    roomsOK (forceDisconnect s c).1.rooms := by
  unfold forceDisconnect
  split
  · split
    · exact roomsOK_leaveAll s c _ h
    · exact h
  · exact h

theorem roomsOK_sendInvalid (s : HubState) (c op res : String)
    (h : roomsOK s.rooms) :
    roomsOK (sendInvalidAndDisconnect s c op res).1.rooms := by
  unfold sendInvalidAndDisconnect
  exact roomsOK_forceDisconnect s c h

theorem inviteFold_members (s : HubState) (rn iu : String) (ids : List String) :
    ∀ acc : RoomState × List OutEvent,
      ((ids.foldl (inviteStep s rn iu) acc).1).members = acc.1.members := by
  induction ids with
  | nil => exact fun acc => rfl
  | cons i rest ih =>
      intro acc
      rw [List.foldl_cons, ih]
      unfold inviteStep
      split
      · rfl
      · split
        · rfl
        · rfl

theorem roomsOK_handleIdentify (s : HubState) (c : String) (env : Envelope)
    (h : roomsOK s.rooms) : roomsOK (handleIdentify s c env).1.rooms := by
  unfold handleIdentify
  split
  · exact roomsOK_sendInvalid _ _ _ _ h
  · split
    · exact roomsOK_sendInvalid _ _ _ _ h
    · split
      · exact h
      · exact h

theorem roomsOK_handleNewRoom (s : HubState) (c : String) (env : Envelope)
    (h : roomsOK s.rooms) : roomsOK (handleNewRoom s c env).1.rooms := by
  unfold handleNewRoom
  split
  · exact roomsOK_sendInvalid _ _ _ _ h
  · split
    · exact roomsOK_sendInvalid _ _ _ _ h
    · split
      · exact h
      · exact roomsOK_minsert h (by simp)

theorem roomsOK_handleInvite (s : HubState) (c u : String) (env : Envelope)
    (h : roomsOK s.rooms) : roomsOK (handleInvite s c u env).1.rooms := by
  unfold handleInvite
  split
  · exact roomsOK_sendInvalid _ _ _ _ h
  · split
    · exact roomsOK_sendInvalid _ _ _ _ h
    · split
      · exact h
      · rename_i request room hroom
        split
        · split
          · exact h
          · apply roomsOK_minsert h
            rw [inviteFold_members]
            exact h _ (mlookup_mem hroom)
        · exact roomsOK_sendInvalid _ _ _ _ h

theorem roomsOK_handleJoinRoom (s : HubState) (c u : String) (env : Envelope)
    (h : roomsOK s.rooms) : roomsOK (handleJoinRoom s c u env).1.rooms := by
  unfold handleJoinRoom
  split
  · exact roomsOK_sendInvalid _ _ _ _ h
  · split
    · exact roomsOK_sendInvalid _ _ _ _ h
    · split
      · exact h
      · split
        · exact h
        · split
          · exact roomsOK_minsert h (sinsert_ne_nil _ _)
          · exact h

theorem roomsOK_handleLeaveRoom (s : HubState) (c u : String) (env : Envelope)
    (h : roomsOK s.rooms) : roomsOK (handleLeaveRoom s c u env).1.rooms := by
  unfold handleLeaveRoom
  split
  · exact roomsOK_sendInvalid _ _ _ _ h
  · split
    · exact roomsOK_sendInvalid _ _ _ _ h
    · split
      · exact h
      · split
        · exact roomsOK_insertThenDelete _ s.rooms _ _ rfl h
        · exact h

theorem roomsOK_handleStatus (s : HubState) (c u : String) (env : Envelope)
    (h : roomsOK s.rooms) : roomsOK (handleStatus s c u env).1.rooms := by
  unfold handleStatus
  split
  · exact roomsOK_sendInvalid _ _ _ _ h
  · exact h

theorem roomsOK_handleUsers (s : HubState) (c : String) (env : Envelope)
    (h : roomsOK s.rooms) : roomsOK (handleUsers s c env).1.rooms := by
  unfold handleUsers
  split
  · exact roomsOK_sendInvalid _ _ _ _ h
  · exact h

theorem roomsOK_handleText (s : HubState) (c u : String) (env : Envelope)
    (h : roomsOK s.rooms) : roomsOK (handleText s c u env).1.rooms := by
  unfold handleText
  split
  · exact roomsOK_sendInvalid _ _ _ _ h
  · split
    · exact h
    · exact h

theorem roomsOK_handlePublicText (s : HubState) (c u : String) (env : Envelope)
    (h : roomsOK s.rooms) : roomsOK (handlePublicText s c u env).1.rooms := by
  unfold handlePublicText
  split
  · exact roomsOK_sendInvalid _ _ _ _ h
  · exact h

theorem roomsOK_handleRoomUsers (s : HubState) (c : String) (env : Envelope)
    (h : roomsOK s.rooms) : roomsOK (handleRoomUsers s c env).1.rooms := by
  unfold handleRoomUsers
  split
  · exact roomsOK_sendInvalid _ _ _ _ h
  · split
    · exact roomsOK_sendInvalid _ _ _ _ h
    · split
      · exact h
      · split
        · exact h
        · exact h

theorem roomsOK_handleRoomText (s : HubState) (c u : String) (env : Envelope)
    (h : roomsOK s.rooms) : roomsOK (handleRoomText s c u env).1.rooms := by
  unfold handleRoomText
  split
  · exact roomsOK_sendInvalid _ _ _ _ h
  · split
    · exact roomsOK_sendInvalid _ _ _ _ h
    · split
      · exact h
      · split
        · exact h
        · exact h

theorem roomsOK_handleDisconnect (s : HubState) (c : String) (env : Envelope)
    (h : roomsOK s.rooms) : roomsOK (handleDisconnect s c env).1.rooms := by
  unfold handleDisconnect
  split
  · exact roomsOK_sendInvalid _ _ _ _ h
  · exact roomsOK_forceDisconnect _ _ h

set_option maxHeartbeats 1000000 in
theorem roomsOK_handleInbound (s : HubState) (c : String) (frame : Json)
    (h : roomsOK s.rooms) : roomsOK (handleInbound s c frame).1.rooms := by
  unfold handleInbound
  split
  · exact roomsOK_sendInvalid _ _ _ _ h
  · split
    · split
      · exact roomsOK_sendInvalid _ _ _ _ h
      · exact roomsOK_handleIdentify _ _ _ h
    · split
      · exact roomsOK_handleStatus _ _ _ _ h
      · split
        · exact roomsOK_handleUsers _ _ _ h
        · split
          · exact roomsOK_handleText _ _ _ _ h
          · split
            · exact roomsOK_handlePublicText _ _ _ _ h
            · split
              · exact roomsOK_handleNewRoom _ _ _ h
              · split
                · exact roomsOK_handleInvite _ _ _ _ h
                · split
                  · exact roomsOK_handleJoinRoom _ _ _ _ h
                  · split
                    · exact roomsOK_handleDisconnect _ _ _ h
                    · split
                      · exact roomsOK_handleRoomUsers _ _ _ h
                      · split
                        · exact roomsOK_handleRoomText _ _ _ _ h
                        · split
                          · exact roomsOK_handleLeaveRoom _ _ _ _ h
                          · exact roomsOK_sendInvalid _ _ _ _ h

theorem roomsOK_closeFold (cs : List String) :
    ∀ acc : HubState × List OutEvent, roomsOK acc.1.rooms →
      roomsOK ((cs.foldl closeAllStep acc).1).rooms := by
  induction cs with
  | nil => exact fun acc h => h
  | cons c rest ih =>
      intro acc h
      rw [List.foldl_cons]
      exact ih _ (roomsOK_forceDisconnect acc.1 c h)

/-- Claim C7: a fresh hub has no rooms, and every hub event — register,
any inbound frame (NEW_ROOM, JOIN_ROOM, LEAVE_ROOM, explicit DISCONNECT
and all others), unregister (forced disconnect) and shutdown — preserves
the invariant that every room in the rooms map has non-empty membership.
Rooms are created with their creator as member and `deleteRoomIfEmpty`
runs after every membership removal, so a room exists iff its `members`
set is non-empty. -/
theorem c7_rooms_nonempty_invariant :
    roomsOK hubNew.rooms ∧
      ∀ (s : HubState) (e : HubEvent), roomsOK s.rooms →
        roomsOK ((step s e).1).rooms := by
  constructor
  · intro p hp
    simp [hubNew] at hp
  · intro s e h
    cases e with
    | register c => exact h
    | unregister c => exact roomsOK_forceDisconnect _ _ h
    | inbound c frame => exact roomsOK_handleInbound _ _ _ h
    | shutdown => exact roomsOK_closeFold _ (s, []) h

/-- Claim C7 witness: the preservation step applied to a concrete state
(alice leaves room `"r"`, of which she is the only member, via a forced
disconnect) — the room disappears rather than surviving empty. -/
theorem c7_rooms_nonempty_invariant_witness :
    roomsOK ((step inviteFixtureState (.unregister "c1")).1).rooms ∧
      mlookup ((step inviteFixtureState (.unregister "c1")).1).rooms "r" = none :=
  ⟨c7_rooms_nonempty_invariant.2 inviteFixtureState (.unregister "c1")
      (by simp [roomsOK, inviteFixtureState]),
    by decide⟩


/-! ### C8: client tokenizer laws -/

/-- Helper: scanning a run of ordinary characters (no whitespace, quote
or backslash) outside quotes appends them to the token and stops at the
end of input or at the first whitespace character, which is left on the
cursor. -/
theorem scanToken_plain (t : List Char) :
    ∀ (acc rest : List Char),
      (∀ c ∈ t, isSpaceChar c = false ∧ c ≠ '"' ∧ c ≠ '\\') →
      (rest = [] ∨ ∃ d rest2, rest = d :: rest2 ∧ isSpaceChar d = true) →
      scanToken false acc (t ++ rest) = .ok (acc.reverse ++ t, rest) := by
  induction t with
  | nil =>
      intro acc rest _ hrest
      rcases hrest with rfl | ⟨d, rest2, rfl, hd⟩
      · unfold scanToken
        simp
      · unfold scanToken
        simp [hd]
  | cons c t' ih =>
      intro acc rest ht hrest
      have hc := ht c (List.mem_cons_self _ _)
      have hbs : (c == '\\') = false := by simp [hc.2.2]
      have hq : (c == '"') = false := by simp [hc.2.1]
      rw [List.cons_append]
      unfold scanToken
      simp only [hc.1, hbs, hq, Bool.not_false, Bool.true_and, Bool.false_and,
        Bool.and_false, Bool.false_eq_true, if_false, ite_false]
      rw [ih (c :: acc) rest (fun x hx => ht x (List.mem_cons_of_mem _ hx)) hrest]
      simp

/-- Helper: inside quotes, a run of characters with no closing quote and
no backslash runs into the end of input: unterminated quote. -/
theorem scanToken_unterminated (t : List Char) :
    ∀ acc : List Char, (∀ c ∈ t, c ≠ '"' ∧ c ≠ '\\') →
      scanToken true acc t = .error .unterminatedQuote := by
  induction t with
  | nil =>
      intro acc _
      unfold scanToken
      simp
  | cons c t' ih =>
      intro acc ht
      have hc := ht c (List.mem_cons_self _ _)
      have hbs : (c == '\\') = false := by simp [hc.2]
      have hq : (c == '"') = false := by simp [hc.1]
      unfold scanToken
      simp only [hbs, hq, Bool.not_true, Bool.false_and, Bool.and_false,
        Bool.true_and, Bool.false_eq_true, if_false, ite_false]
      exact ih (c :: acc) (fun x hx => ht x (List.mem_cons_of_mem _ hx))

/-- Helper: tokenizing an exhausted cursor. -/
theorem tokenizeAux_nil (f : Nat) (hf : 0 < f) : tokenizeAux f [] = .ok [] := by
  cases f with
  | zero => omega
  | succ f' =>
      unfold tokenizeAux
      simp [skipSpaces]

/-- Helper: a cursor holding exactly one run of ordinary characters
tokenizes to that single token. -/
theorem tokenizeAux_token_end (t : List Char)
    (ht : ∀ c ∈ t, isSpaceChar c = false ∧ c ≠ '"' ∧ c ≠ '\\') (hne : t ≠ []) :
    ∀ f : Nat, t.length < f → tokenizeAux f t = .ok [t] := by
  intro f hf
  cases f with
  | zero => omega
  | succ f' =>
      obtain ⟨c, t', rfl⟩ := List.exists_cons_of_ne_nil hne
      have hc := ht c (List.mem_cons_self _ _)
      have hscan : scanToken false [] (c :: t') = .ok (c :: t', []) := by
        have := scanToken_plain (c :: t') [] [] ht (Or.inl rfl)
        simpa using this
      unfold tokenizeAux
      unfold skipSpaces
      simp only [hc.1, Bool.false_eq_true, if_false, ite_false, if_neg hc.2.1,
        hscan]
      rw [tokenizeAux_nil f' (by simp [List.length_cons] at hf; omega)]

/-- Helper: a cursor holding one whitespace character followed by a
single run of ordinary characters. -/
theorem tokenizeAux_space_token (d : Char) (hd : isSpaceChar d = true)
    (t : List Char)
    (ht : ∀ c ∈ t, isSpaceChar c = false ∧ c ≠ '"' ∧ c ≠ '\\') (hne : t ≠ []) :
    ∀ f : Nat, t.length + 1 < f → tokenizeAux f (d :: t) = .ok [t] := by
  intro f hf
  cases f with
  | zero => omega
  | succ f' =>
      obtain ⟨c, t', rfl⟩ := List.exists_cons_of_ne_nil hne
      have hc := ht c (List.mem_cons_self _ _)
      have hscan : scanToken false [] (c :: t') = .ok (c :: t', []) := by
        have := scanToken_plain (c :: t') [] [] ht (Or.inl rfl)
        simpa using this
      unfold tokenizeAux
      unfold skipSpaces
      simp only [hd, if_true, ite_true]
      unfold skipSpaces
      simp only [hc.1, Bool.false_eq_true, if_false, ite_false, if_neg hc.2.1,
        hscan]
      rw [tokenizeAux_nil f' (by simp [List.length_cons] at hf; omega)]

/-- Claim C8: the tokenizer of the reference client splits on whitespace
outside double quotes (two runs of ordinary characters separated by a
whitespace character become exactly two tokens); the quoted input
`"a b"` becomes the single token `a b` with the space preserved; the
two-character sequence backslash-`n` produces a literal LF in the token;
and an unterminated double quote fails with the unterminated-quote
syntax error. -/
theorem c8_tokenizer_laws :
    (∀ (t1 t2 : List Char) (d : Char),
      t1 ≠ [] → t2 ≠ [] → isSpaceChar d = true →
      (∀ c ∈ t1, isSpaceChar c = false ∧ c ≠ '"' ∧ c ≠ '\\') →
      (∀ c ∈ t2, isSpaceChar c = false ∧ c ≠ '"' ∧ c ≠ '\\') →
      tokenizeLine (t1 ++ d :: t2) = .ok [t1, t2]) ∧
    tokenizeLine ['"', 'a', ' ', 'b', '"'] = .ok [['a', ' ', 'b']] ∧
    tokenizeLine ['a', '\\', 'n', 'b'] = .ok [['a', '\n', 'b']] ∧
    (∀ t : List Char, (∀ c ∈ t, c ≠ '"' ∧ c ≠ '\\') →
      tokenizeLine ('"' :: t) = .error .unterminatedQuote) := by
  refine ⟨?_, rfl, rfl, ?_⟩
  · intro t1 t2 d h1 h2 hd ht1 ht2
    obtain ⟨c, t1', rfl⟩ := List.exists_cons_of_ne_nil h1
    have hc := ht1 c (List.mem_cons_self _ _)
    have hscan : scanToken false [] (c :: (t1' ++ d :: t2))
        = .ok (c :: t1', d :: t2) := by
      have := scanToken_plain (c :: t1') [] (d :: t2) ht1
        (Or.inr ⟨d, t2, rfl, hd⟩)
      simpa using this
    show tokenizeAux (((c :: t1') ++ d :: t2).length + 1) ((c :: t1') ++ d :: t2)
        = .ok [c :: t1', t2]
    rw [List.cons_append]
    unfold tokenizeAux
    unfold skipSpaces
    simp only [hc.1, Bool.false_eq_true, if_false, ite_false, if_neg hc.2.1,
      hscan]
    rw [tokenizeAux_space_token d hd t2 ht2 h2 (c :: (t1' ++ d :: t2)).length
      (by simp [List.length_cons, List.length_append]; omega)]
  · intro t ht
    have hscan := scanToken_unterminated t [] ht
    show tokenizeAux (('"' :: t).length + 1) ('"' :: t) = .error .unterminatedQuote
    unfold tokenizeAux
    unfold skipSpaces
    have hq : isSpaceChar '"' = false := by decide
    simp only [hq, Bool.false_eq_true, if_false, ite_false, hscan]
    rw [if_pos trivial]

/-- Claim C8 witness: the general conjuncts applied to `ab cd` (split
into two tokens) and to `"abc` (unterminated quote). -/
theorem c8_tokenizer_laws_witness :
    tokenizeLine ['a', 'b', ' ', 'c', 'd'] = .ok [['a', 'b'], ['c', 'd']] ∧
      tokenizeLine ['"', 'a', 'b', 'c'] = .error .unterminatedQuote :=
  ⟨c8_tokenizer_laws.1 ['a', 'b'] ['c', 'd'] ' ' (by decide) (by decide)
      (by decide) (by decide) (by decide),
    c8_tokenizer_laws.2.2.2 ['a', 'b', 'c'] (by decide)⟩


/-! ### C1: the connection-record invariant (amended) -/

theorem mlookup_cases_merase {β : Type} {m : List (String × β)} {k k' : String}
    {w : β} (h : mlookup (merase m k) k' = some w) :
    k' ≠ k ∧ mlookup m k' = some w := by
  by_cases hk : k' = k
  · subst hk
    rw [mlookup_merase_self] at h
    exact absurd h (by simp)
  · exact ⟨hk, by rw [← mlookup_merase_ne m hk]; exact h⟩

theorem mlookup_cases_minsert {β : Type} {m : List (String × β)} {k k' : String}
    {v w : β} (h : mlookup (minsert m k v) k' = some w) :
    (k' = k ∧ w = v) ∨ (k' ≠ k ∧ mlookup m k' = some w) := by
  by_cases hk : k' = k
  · subst hk
    rw [mlookup_minsert_self] at h
    exact Or.inl ⟨rfl, (Option.some.injEq _ _ ▸ h).symm⟩
  · exact Or.inr ⟨hk, by rw [← mlookup_minsert_ne m v hk]; exact h⟩

/-- The decidable entry-wise invariants coincide with the lookup-form
bundle. -/
theorem hubInv_iff (s : HubState) :
    (connRecordInvariant s ∧ hubAuxInvariant s) ↔ HubInvL s := by
  constructor
  · rintro ⟨⟨h1, h2, h3⟩, ⟨h4, h5, h6, h7, h8⟩⟩
    refine ⟨?_, ?_, ?_, ?_, ?_, ?_, ?_, ?_⟩
    · exact fun u c h => h1 (u, c) (mlookup_mem h) h
    · exact fun c rs h => h2 (c, rs) (mlookup_mem h) h
    · exact fun r rm h => h3 (r, rm) (mlookup_mem h) h
    · intro r rm h c hc
      have := h4 (r, rm) (mlookup_mem h) h c hc
      cases hrs : mlookup s.clientRooms c with
      | none => rw [hrs] at this; exact absurd this (by simp)
      | some rs => rw [hrs] at this; exact ⟨rs, rfl, this⟩
    · exact fun u c h => h5 (u, c) (mlookup_mem h) h
    · exact fun c u h => h6 (c, u) (mlookup_mem h) h
    · exact fun r rm h => h7 (r, rm) (mlookup_mem h) h
    · exact fun c rs h => h8 (c, rs) (mlookup_mem h) h
  · intro h
    refine ⟨⟨?_, ?_, ?_⟩, ?_, ?_, ?_, ?_, ?_⟩
    · exact fun p _ hl => h.ownerConn p.1 p.2 hl
    · exact fun p _ hl => h.idxConn p.1 p.2 hl
    · exact fun p _ hl => h.memConn p.1 p.2 hl
    · intro p _ hl c hc
      obtain ⟨rs, hrs, hin⟩ := h.memListed p.1 p.2 hl c hc
      rw [hrs]
      exact hin
    · exact fun p _ hl => h.ownerUser p.1 p.2 hl
    · exact fun p _ hl => h.userOwner p.1 p.2 hl
    · exact fun p _ hl => h.memIdent p.1 p.2 hl
    · exact fun p _ hl => h.setsNE p.1 p.2 hl

/-- An identified client has a connection record (derived, not assumed). -/
theorem registered_of_identified {s : HubState} (h : HubInvL s) {c u : String}
    (hcu : mlookup s.clientUser c = some u) : c ∈ s.clients :=
  h.ownerConn u c (h.userOwner c u hcu)


theorem mlookup_deleteRoomIfEmpty {s : HubState} {n r : String} {rm' : RoomState}
    (h : mlookup (deleteRoomIfEmpty s n).rooms r = some rm') :
    mlookup s.rooms r = some rm' := by
  unfold deleteRoomIfEmpty at h
  split at h
  · split at h
    · exact (mlookup_cases_merase h).2
    · exact h
  · exact h

/-- `deleteRoomIfEmpty` never touches the non-room fields. -/
theorem deleteRoomIfEmpty_fields (s : HubState) (n : String) :
    (deleteRoomIfEmpty s n).clients = s.clients ∧
    (deleteRoomIfEmpty s n).clientUser = s.clientUser ∧
    (deleteRoomIfEmpty s n).clientStatus = s.clientStatus ∧
    (deleteRoomIfEmpty s n).usernameOwner = s.usernameOwner ∧
    (deleteRoomIfEmpty s n).clientRooms = s.clientRooms := by
  unfold deleteRoomIfEmpty
  split
  · split
    · exact ⟨rfl, rfl, rfl, rfl, rfl⟩
    · exact ⟨rfl, rfl, rfl, rfl, rfl⟩
  · exact ⟨rfl, rfl, rfl, rfl, rfl⟩

/-- One `leaveRoomStep` never touches the non-room fields of the
state. -/
theorem leaveRoomStep_fields (c u : String) (acc : HubState × List OutEvent)
    (n : String) :
    (leaveRoomStep c u acc n).1.clients = acc.1.clients ∧
    (leaveRoomStep c u acc n).1.clientUser = acc.1.clientUser ∧
    (leaveRoomStep c u acc n).1.clientStatus = acc.1.clientStatus ∧
    (leaveRoomStep c u acc n).1.usernameOwner = acc.1.usernameOwner ∧
    (leaveRoomStep c u acc n).1.clientRooms = acc.1.clientRooms := by
  unfold leaveRoomStep
  split
  · exact ⟨rfl, rfl, rfl, rfl, rfl⟩
  · exact ⟨(deleteRoomIfEmpty_fields _ _).1, (deleteRoomIfEmpty_fields _ _).2.1,
      (deleteRoomIfEmpty_fields _ _).2.2.1, (deleteRoomIfEmpty_fields _ _).2.2.2.1,
      (deleteRoomIfEmpty_fields _ _).2.2.2.2⟩

/-- One `leaveRoomStep` only shrinks rooms, and clears the leaving
client out of the processed room's member set. -/
theorem leaveRoomStep_rooms (c u : String) (acc : HubState × List OutEvent)
    (n r : String) (rm' : RoomState)
    (h : mlookup (leaveRoomStep c u acc n).1.rooms r = some rm') :
    (∃ rm, mlookup acc.1.rooms r = some rm ∧
      (∀ x ∈ rm'.members, x ∈ rm.members) ∧
      (∀ x ∈ rm'.invited, x ∈ rm.invited)) ∧
    (r = n → c ∉ rm'.members ∧ c ∉ rm'.invited) := by
  unfold leaveRoomStep at h
  split at h
  · rename_i hn
    refine ⟨⟨rm', h, fun x hx => hx, fun x hx => hx⟩, ?_⟩
    rintro rfl
    rw [h] at hn
    exact absurd hn (by simp)
  · rename_i room hn
    simp only [] at h
    have hst := mlookup_deleteRoomIfEmpty h
    rcases mlookup_cases_minsert hst with ⟨rfl, rfl⟩ | ⟨hne, horig⟩
    · refine ⟨⟨room, hn, ?_, ?_⟩, ?_⟩
      · exact fun x hx => (mem_serase.mp hx).1
      · exact fun x hx => (mem_serase.mp hx).1
      · intro _
        constructor
        · exact fun hc => (mem_serase.mp hc).2 rfl
        · exact fun hc => (mem_serase.mp hc).2 rfl
    · refine ⟨⟨rm', horig, fun x hx => hx, fun x hx => hx⟩, ?_⟩
      rintro rfl
      exact absurd rfl hne

/-- The whole room loop of the disconnect flow: non-room fields are
untouched, rooms only shrink, and the leaving client is cleared out of
the member and invited sets of every room named in its room set. -/
theorem leaveFold_spec (c u : String) (names : List String) :
    ∀ acc : HubState × List OutEvent,
      (names.foldl (leaveRoomStep c u) acc).1.clients = acc.1.clients ∧
      (names.foldl (leaveRoomStep c u) acc).1.clientUser = acc.1.clientUser ∧
      (names.foldl (leaveRoomStep c u) acc).1.clientStatus = acc.1.clientStatus ∧
      (names.foldl (leaveRoomStep c u) acc).1.usernameOwner
        = acc.1.usernameOwner ∧
      (names.foldl (leaveRoomStep c u) acc).1.clientRooms = acc.1.clientRooms ∧
      ∀ r rm', mlookup (names.foldl (leaveRoomStep c u) acc).1.rooms r
          = some rm' →
        (∃ rm, mlookup acc.1.rooms r = some rm ∧
          (∀ x ∈ rm'.members, x ∈ rm.members) ∧
          (∀ x ∈ rm'.invited, x ∈ rm.invited)) ∧
        (r ∈ names → c ∉ rm'.members ∧ c ∉ rm'.invited) := by
  induction names with
  | nil =>
      intro acc
      refine ⟨rfl, rfl, rfl, rfl, rfl, ?_⟩
      intro r rm' h
      exact ⟨⟨rm', h, fun x hx => hx, fun x hx => hx⟩,
        fun hrn => absurd hrn (List.not_mem_nil r)⟩
  | cons n rest ih =>
      intro acc
      rw [List.foldl_cons]
      obtain ⟨e1, e2, e3, e4, e5, hrooms⟩ := ih (leaveRoomStep c u acc n)
      have f := leaveRoomStep_fields c u acc n
      refine ⟨e1.trans f.1, e2.trans f.2.1, e3.trans f.2.2.1,
        e4.trans f.2.2.2.1, e5.trans f.2.2.2.2, ?_⟩
      intro r rm' h
      obtain ⟨⟨rmMid, hMid, hsubM, hsubI⟩, hrest⟩ := hrooms r rm' h
      obtain ⟨⟨rm0, h0, hsubM0, hsubI0⟩, hn⟩ :=
        leaveRoomStep_rooms c u acc n r rmMid hMid
      refine ⟨⟨rm0, h0, fun x hx => hsubM0 x (hsubM x hx),
        fun x hx => hsubI0 x (hsubI x hx)⟩, ?_⟩
      intro hrn
      rcases List.mem_cons.mp hrn with rfl | hr2
      · exact ⟨fun hc => (hn rfl).1 (hsubM c hc),
          fun hc => (hn rfl).2 (hsubI c hc)⟩
      · exact hrest hr2


/-- The disconnect room loop, end to end: non-room fields unchanged, the
leaving client's rooms-of-client entry gone (other entries untouched),
rooms only shrink, and — using the invariants — the leaving client is a
member of no surviving room. -/
theorem leaveAll_spec (s : HubState) (c u : String) (h : HubInvL s) :
    (leaveAllJoinedRoomsWithNotification s c u).1.clients = s.clients ∧
    (leaveAllJoinedRoomsWithNotification s c u).1.clientUser = s.clientUser ∧
    (leaveAllJoinedRoomsWithNotification s c u).1.clientStatus
      = s.clientStatus ∧
    (leaveAllJoinedRoomsWithNotification s c u).1.usernameOwner
      = s.usernameOwner ∧
    mlookup (leaveAllJoinedRoomsWithNotification s c u).1.clientRooms c
      = none ∧
    (∀ c', c' ≠ c →
      mlookup (leaveAllJoinedRoomsWithNotification s c u).1.clientRooms c'
        = mlookup s.clientRooms c') ∧
    (∀ r rm', mlookup (leaveAllJoinedRoomsWithNotification s c u).1.rooms r
        = some rm' →
      ∃ rm, mlookup s.rooms r = some rm ∧
        (∀ x ∈ rm'.members, x ∈ rm.members) ∧
        (∀ x ∈ rm'.invited, x ∈ rm.invited) ∧ c ∉ rm'.members) := by
  unfold leaveAllJoinedRoomsWithNotification
  split
  · rename_i hnone
    refine ⟨rfl, rfl, rfl, rfl, hnone, fun c' _ => rfl, ?_⟩
    intro r rm' h'
    refine ⟨rm', h', fun x hx => hx, fun x hx => hx, ?_⟩
    intro hc
    obtain ⟨rs0, hrs0, _⟩ := h.memListed r rm' h' c hc
    rw [hnone] at hrs0
    exact absurd hrs0 (by simp)
  · rename_i rs hrs
    split
    · rename_i hempty
      exact absurd hempty (h.setsNE c rs hrs)
    · obtain ⟨e1, e2, e3, e4, e5, hrooms⟩ := leaveFold_spec c u rs (s, [])
      refine ⟨e1, e2, e3, e4, ?_, ?_, ?_⟩
      · exact mlookup_merase_self _ _
      · intro c' hne
        rw [mlookup_merase_ne _ hne, e5]
      · intro r rm' h'
        obtain ⟨⟨rm0, h0, subM, subI⟩, hin⟩ := hrooms r rm' h'
        refine ⟨rm0, h0, subM, subI, ?_⟩
        by_cases hr : r ∈ rs
        · exact (hin hr).1
        · intro hc
          obtain ⟨rs0, hrs0, hr0⟩ := h.memListed r rm0 h0 c (subM c hc)
          rw [hrs] at hrs0
          cases hrs0
          exact hr hr0

/-- `forceDisconnect` preserves all hub invariants, for any client. -/
theorem hubInvL_forceDisconnect (s : HubState) (c : String) (h : HubInvL s) :
    HubInvL (forceDisconnect s c).1 := by
  unfold forceDisconnect
  split
  · split
    · rename_i username hcu
      obtain ⟨e1, e2, e3, e4, hcnone, hcother, hrooms⟩ :=
        leaveAll_spec s c username h
      simp only []
      rw [e1, e2, e3, e4]
      refine ⟨?_, ?_, ?_, ?_, ?_, ?_, ?_, ?_⟩
      · intro u' c' h'
        obtain ⟨hneU, horig⟩ := mlookup_cases_merase h'
        refine mem_serase.mpr ⟨h.ownerConn _ _ horig, ?_⟩
        intro hcc
        subst hcc
        have := h.ownerUser _ _ horig
        rw [hcu] at this
        cases this
        exact hneU rfl
      · intro c' rs' h'
        by_cases hcc : c' = c
        · subst hcc
          rw [hcnone] at h'
          exact absurd h' (by simp)
        · rw [hcother c' hcc] at h'
          exact mem_serase.mpr ⟨h.idxConn _ _ h', hcc⟩
      · intro r rm h' c' hc'
        obtain ⟨rm0, h0, subM, _, hcnot⟩ := hrooms r rm h'
        refine mem_serase.mpr ⟨h.memConn r rm0 h0 c' (subM c' hc'), ?_⟩
        intro hcc
        subst hcc
        exact hcnot hc'
      · intro r rm h' c' hc'
        obtain ⟨rm0, h0, subM, _, hcnot⟩ := hrooms r rm h'
        have hne : c' ≠ c := fun hcc => by subst hcc; exact hcnot hc'
        obtain ⟨rs0, hrs0, hr0⟩ := h.memListed r rm0 h0 c' (subM c' hc')
        exact ⟨rs0, by rw [hcother c' hne]; exact hrs0, hr0⟩
      · intro u' c' h'
        obtain ⟨hneU, horig⟩ := mlookup_cases_merase h'
        have hne : c' ≠ c := by
          intro hcc
          subst hcc
          have := h.ownerUser _ _ horig
          rw [hcu] at this
          cases this
          exact hneU rfl
        rw [mlookup_merase_ne _ hne]
        exact h.ownerUser _ _ horig
      · intro c' u' h'
        obtain ⟨hneC, horig⟩ := mlookup_cases_merase h'
        have hneU : u' ≠ username := by
          intro huu
          subst huu
          have h1 := h.userOwner _ _ horig
          have h2 := h.userOwner _ _ hcu
          rw [h1] at h2
          cases h2
          exact hneC rfl
        rw [mlookup_merase_ne _ hneU]
        exact h.userOwner _ _ horig
      · intro r rm h' c' hc'
        obtain ⟨rm0, h0, subM, _, hcnot⟩ := hrooms r rm h'
        have hne : c' ≠ c := fun hcc => by subst hcc; exact hcnot hc'
        rw [mlookup_merase_ne _ hne]
        exact h.memIdent r rm0 h0 c' (subM c' hc')
      · intro c' rs' h'
        by_cases hcc : c' = c
        · subst hcc
          rw [hcnone] at h'
          exact absurd h' (by simp)
        · rw [hcother c' hcc] at h'
          exact h.setsNE _ _ h'
    · rename_i hcu
      simp only []
      refine ⟨?_, ?_, ?_, ?_, ?_, ?_, ?_, ?_⟩
      · intro u' c' h'
        refine mem_serase.mpr ⟨h.ownerConn _ _ h', ?_⟩
        intro hcc
        subst hcc
        have := h.ownerUser _ _ h'
        rw [hcu] at this
        exact absurd this (by simp)
      · intro c' rs' h'
        obtain ⟨hne, horig⟩ := mlookup_cases_merase h'
        exact mem_serase.mpr ⟨h.idxConn _ _ horig, hne⟩
      · intro r rm h' c' hc'
        refine mem_serase.mpr ⟨h.memConn r rm h' c' hc', ?_⟩
        intro hcc
        subst hcc
        exact h.memIdent r rm h' c' hc' hcu
      · intro r rm h' c' hc'
        have hne : c' ≠ c := by
          intro hcc
          subst hcc
          exact h.memIdent r rm h' c' hc' hcu
        obtain ⟨rs0, hrs0, hr0⟩ := h.memListed r rm h' c' hc'
        exact ⟨rs0, by rw [mlookup_merase_ne _ hne]; exact hrs0, hr0⟩
      · intro u' c' h'
        have hne : c' ≠ c := by
          intro hcc
          subst hcc
          have := h.ownerUser _ _ h'
          rw [hcu] at this
          exact absurd this (by simp)
        rw [mlookup_merase_ne _ hne]
        exact h.ownerUser _ _ h'
      · intro c' u' h'
        obtain ⟨hne, horig⟩ := mlookup_cases_merase h'
        exact h.userOwner _ _ horig
      · intro r rm h' c' hc'
        have hne : c' ≠ c := by
          intro hcc
          subst hcc
          exact h.memIdent r rm h' c' hc' hcu
        rw [mlookup_merase_ne _ hne]
        exact h.memIdent r rm h' c' hc'
      · intro c' rs' h'
        obtain ⟨hne, horig⟩ := mlookup_cases_merase h'
        exact h.setsNE _ _ horig
  · exact h

/-- `sendInvalidAndDisconnect` preserves all hub invariants. -/
theorem hubInvL_sendInvalid (s : HubState) (c op res : String) (h : HubInvL s) :
    HubInvL (sendInvalidAndDisconnect s c op res).1 := by
  unfold sendInvalidAndDisconnect
  exact hubInvL_forceDisconnect s c h


/-- `handleIdentify` preserves all hub invariants when the sender still
has a connection record and is unidentified (the only way the hub
reaches it). -/
theorem hubInvL_handleIdentify (s : HubState) (c : String) (env : Envelope)
    (h : HubInvL s) (hreg : c ∈ s.clients)
    (hcu : mlookup s.clientUser c = none) :
    HubInvL (handleIdentify s c env).1 := by
  unfold handleIdentify
  split
  · exact hubInvL_sendInvalid _ _ _ _ h
  · rename_i request hdec
    split
    · exact hubInvL_sendInvalid _ _ _ _ h
    · split
      · exact h
      · rename_i hnone
        simp only []
        refine ⟨?_, ?_, ?_, ?_, ?_, ?_, ?_, ?_⟩
        · intro u' c' h'
          rcases mlookup_cases_minsert h' with ⟨rfl, rfl⟩ | ⟨_, horig⟩
          · exact hreg
          · exact h.ownerConn _ _ horig
        · exact fun c' rs h' => h.idxConn c' rs h'
        · exact fun r rm h' => h.memConn r rm h'
        · exact fun r rm h' => h.memListed r rm h'
        · intro u' c' h'
          rcases mlookup_cases_minsert h' with ⟨rfl, rfl⟩ | ⟨hneU, horig⟩
          · exact mlookup_minsert_self _ _ _
          · have hne : c' ≠ c := by
              intro hcc
              subst hcc
              rw [h.ownerUser _ _ horig] at hcu
              cases hcu
            rw [mlookup_minsert_ne _ _ hne]
            exact h.ownerUser _ _ horig
        · intro c' u' h'
          rcases mlookup_cases_minsert h' with ⟨rfl, rfl⟩ | ⟨hneC, horig⟩
          · exact mlookup_minsert_self _ _ _
          · have hneU : u' ≠ request.username := by
              intro huu
              subst huu
              rw [h.userOwner _ _ horig] at hnone
              cases hnone
            rw [mlookup_minsert_ne _ _ hneU]
            exact h.userOwner _ _ horig
        · intro r rm h' c' hc'
          by_cases hcc : c' = c
          · subst hcc
            rw [mlookup_minsert_self]
            simp
          · rw [mlookup_minsert_ne _ _ hcc]
            exact h.memIdent r rm h' c' hc'
        · exact fun c' rs h' => h.setsNE c' rs h'

theorem hubInvL_handleStatus (s : HubState) (c u : String) (env : Envelope)
    (h : HubInvL s) : HubInvL (handleStatus s c u env).1 := by
  unfold handleStatus
  split
  · exact hubInvL_sendInvalid _ _ _ _ h
  · exact ⟨h.ownerConn, h.idxConn, h.memConn, h.memListed, h.ownerUser,
      h.userOwner, h.memIdent, h.setsNE⟩

theorem hubInvL_handleUsers (s : HubState) (c : String) (env : Envelope)
    (h : HubInvL s) : HubInvL (handleUsers s c env).1 := by
  unfold handleUsers
  split
  · exact hubInvL_sendInvalid _ _ _ _ h
  · exact h

theorem hubInvL_handleText (s : HubState) (c u : String) (env : Envelope)
    (h : HubInvL s) : HubInvL (handleText s c u env).1 := by
  unfold handleText
  split
  · exact hubInvL_sendInvalid _ _ _ _ h
  · split
    · exact h
    · exact h

theorem hubInvL_handlePublicText (s : HubState) (c u : String) (env : Envelope)
    (h : HubInvL s) : HubInvL (handlePublicText s c u env).1 := by
  unfold handlePublicText
  split
  · exact hubInvL_sendInvalid _ _ _ _ h
  · exact h

theorem hubInvL_handleRoomUsers (s : HubState) (c : String) (env : Envelope)
    (h : HubInvL s) : HubInvL (handleRoomUsers s c env).1 := by
  unfold handleRoomUsers
  split
  · exact hubInvL_sendInvalid _ _ _ _ h
  · split
    · exact hubInvL_sendInvalid _ _ _ _ h
    · split
      · exact h
      · split
        · exact h
        · exact h

theorem hubInvL_handleRoomText (s : HubState) (c u : String) (env : Envelope)
    (h : HubInvL s) : HubInvL (handleRoomText s c u env).1 := by
  unfold handleRoomText
  split
  · exact hubInvL_sendInvalid _ _ _ _ h
  · split
    · exact hubInvL_sendInvalid _ _ _ _ h
    · split
      · exact h
      · split
        · exact h
        · exact h

theorem hubInvL_handleDisconnect (s : HubState) (c : String) (env : Envelope)
    (h : HubInvL s) : HubInvL (handleDisconnect s c env).1 := by
  unfold handleDisconnect
  split
  · exact hubInvL_sendInvalid _ _ _ _ h
  · exact hubInvL_forceDisconnect _ _ h

/-- Deleting an empty room preserves all hub invariants. -/
theorem hubInvL_deleteRoomIfEmpty (s : HubState) (rn : String) (h : HubInvL s) :
    HubInvL (deleteRoomIfEmpty s rn) := by
  obtain ⟨f1, f2, f3, f4, f5⟩ := deleteRoomIfEmpty_fields s rn
  refine ⟨?_, ?_, ?_, ?_, ?_, ?_, ?_, ?_⟩
  · rw [f4, f1]
    exact h.ownerConn
  · rw [f5, f1]
    exact h.idxConn
  · rw [f1]
    exact fun r rm h' => h.memConn r rm (mlookup_deleteRoomIfEmpty h')
  · rw [f5]
    exact fun r rm h' => h.memListed r rm (mlookup_deleteRoomIfEmpty h')
  · rw [f4, f2]
    exact h.ownerUser
  · rw [f2, f4]
    exact h.userOwner
  · rw [f2]
    exact fun r rm h' => h.memIdent r rm (mlookup_deleteRoomIfEmpty h')
  · rw [f5]
    exact h.setsNE


/-- `handleNewRoom` preserves all hub invariants for an identified
sender. -/
theorem hubInvL_handleNewRoom (s : HubState) (c u : String) (env : Envelope)
    (h : HubInvL s) (hcu : mlookup s.clientUser c = some u) :
    HubInvL (handleNewRoom s c env).1 := by
  have hreg : c ∈ s.clients := registered_of_identified h hcu
  unfold handleNewRoom
  split
  · exact hubInvL_sendInvalid _ _ _ _ h
  · rename_i request hdec
    split
    · exact hubInvL_sendInvalid _ _ _ _ h
    · split
      · exact h
      · rename_i hnone
        simp only []
        refine ⟨?_, ?_, ?_, ?_, ?_, ?_, ?_, ?_⟩
        · exact fun u' c' h' => h.ownerConn u' c' h'
        · intro c' rs' h'
          rcases mlookup_cases_minsert h' with ⟨rfl, _⟩ | ⟨_, horig⟩
          · exact hreg
          · exact h.idxConn _ _ horig
        · intro r rm h' c' hc'
          rcases mlookup_cases_minsert h' with ⟨rfl, rfl⟩ | ⟨_, horig⟩
          · have : c' = c := by simpa using hc'
            subst this
            exact hreg
          · exact h.memConn _ _ horig c' hc'
        · intro r rm h' c' hc'
          rcases mlookup_cases_minsert h' with ⟨rfl, rfl⟩ | ⟨hner, horig⟩
          · have : c' = c := by simpa using hc'
            subst this
            exact ⟨_, mlookup_minsert_self _ _ _, mem_sinsert.mpr (Or.inl rfl)⟩
          · obtain ⟨rs0, hrs0, hr0⟩ := h.memListed _ _ horig c' hc'
            by_cases hcc : c' = c
            · subst hcc
              refine ⟨_, mlookup_minsert_self _ _ _, ?_⟩
              rw [hrs0]
              exact mem_sinsert.mpr (Or.inr hr0)
            · exact ⟨rs0, by rw [mlookup_minsert_ne _ _ hcc]; exact hrs0, hr0⟩
        · exact fun u' c' h' => h.ownerUser u' c' h'
        · exact fun c' u' h' => h.userOwner c' u' h'
        · intro r rm h' c' hc'
          rcases mlookup_cases_minsert h' with ⟨rfl, rfl⟩ | ⟨_, horig⟩
          · have : c' = c := by simpa using hc'
            subst this
            rw [hcu]
            simp
          · exact h.memIdent _ _ horig c' hc'
        · intro c' rs' h'
          rcases mlookup_cases_minsert h' with ⟨rfl, rfl⟩ | ⟨_, horig⟩
          · exact sinsert_ne_nil _ _
          · exact h.setsNE _ _ horig

/-- `handleJoinRoom` preserves all hub invariants for an identified
sender. -/
theorem hubInvL_handleJoinRoom (s : HubState) (c u : String) (env : Envelope)
    (h : HubInvL s) (hcu : mlookup s.clientUser c = some u) :
    HubInvL (handleJoinRoom s c u env).1 := by
  have hreg : c ∈ s.clients := registered_of_identified h hcu
  unfold handleJoinRoom
  split
  · exact hubInvL_sendInvalid _ _ _ _ h
  · rename_i request hdec
    split
    · exact hubInvL_sendInvalid _ _ _ _ h
    · split
      · exact h
      · rename_i room hroom
        split
        · exact h
        · split
          · rename_i hnotmem hinvited
            simp only []
            refine ⟨?_, ?_, ?_, ?_, ?_, ?_, ?_, ?_⟩
            · exact fun u' c' h' => h.ownerConn u' c' h'
            · intro c' rs' h'
              rcases mlookup_cases_minsert h' with ⟨rfl, _⟩ | ⟨_, horig⟩
              · exact hreg
              · exact h.idxConn _ _ horig
            · intro r rm h' c' hc'
              rcases mlookup_cases_minsert h' with ⟨rfl, rfl⟩ | ⟨_, horig⟩
              · rcases mem_sinsert.mp hc' with rfl | hm
                · exact hreg
                · exact h.memConn _ _ hroom c' hm
              · exact h.memConn _ _ horig c' hc'
            · intro r rm h' c' hc'
              rcases mlookup_cases_minsert h' with ⟨rfl, rfl⟩ | ⟨hner, horig⟩
              · rcases mem_sinsert.mp hc' with rfl | hm
                · exact ⟨_, mlookup_minsert_self _ _ _,
                    mem_sinsert.mpr (Or.inl rfl)⟩
                · have hcc : c' ≠ c := fun he => hnotmem (he ▸ hm)
                  obtain ⟨rs0, hrs0, hr0⟩ := h.memListed _ _ hroom c' hm
                  exact ⟨rs0, by rw [mlookup_minsert_ne _ _ hcc]; exact hrs0, hr0⟩
              · obtain ⟨rs0, hrs0, hr0⟩ := h.memListed _ _ horig c' hc'
                by_cases hcc : c' = c
                · subst hcc
                  refine ⟨_, mlookup_minsert_self _ _ _, ?_⟩
                  rw [hrs0]
                  exact mem_sinsert.mpr (Or.inr hr0)
                · exact ⟨rs0, by rw [mlookup_minsert_ne _ _ hcc]; exact hrs0, hr0⟩
            · exact fun u' c' h' => h.ownerUser u' c' h'
            · exact fun c' u' h' => h.userOwner c' u' h'
            · intro r rm h' c' hc'
              rcases mlookup_cases_minsert h' with ⟨rfl, rfl⟩ | ⟨_, horig⟩
              · rcases mem_sinsert.mp hc' with rfl | hm
                · rw [hcu]
                  simp
                · exact h.memIdent _ _ hroom c' hm
              · exact h.memIdent _ _ horig c' hc'
            · intro c' rs' h'
              rcases mlookup_cases_minsert h' with ⟨rfl, rfl⟩ | ⟨_, horig⟩
              · exact sinsert_ne_nil _ _
              · exact h.setsNE _ _ horig
          · exact h

/-- `handleLeaveRoom` preserves all hub invariants for an identified
sender. -/
theorem hubInvL_handleLeaveRoom (s : HubState) (c u : String) (env : Envelope)
    (h : HubInvL s) (hcu : mlookup s.clientUser c = some u) :
    HubInvL (handleLeaveRoom s c u env).1 := by
  have hreg : c ∈ s.clients := registered_of_identified h hcu
  unfold handleLeaveRoom
  split
  · exact hubInvL_sendInvalid _ _ _ _ h
  · rename_i request hdec
    split
    · exact hubInvL_sendInvalid _ _ _ _ h
    · split
      · exact h
      · rename_i room hroom
        split
        · rename_i hmem
          simp only []
          apply hubInvL_deleteRoomIfEmpty
          cases hcs : mlookup s.clientRooms c with
          | none =>
              simp only [hcs]
              refine ⟨?_, ?_, ?_, ?_, ?_, ?_, ?_, ?_⟩
              · exact fun u' c' h' => h.ownerConn u' c' h'
              · exact fun c' rs' h' => h.idxConn c' rs' h'
              · intro r rm h' c' hc'
                rcases mlookup_cases_minsert h' with ⟨rfl, rfl⟩ | ⟨_, horig⟩
                · exact h.memConn _ _ hroom c' (mem_serase.mp hc').1
                · exact h.memConn _ _ horig c' hc'
              · intro r rm h' c' hc'
                rcases mlookup_cases_minsert h' with ⟨rfl, rfl⟩ | ⟨hner, horig⟩
                · exact h.memListed _ _ hroom c' (mem_serase.mp hc').1
                · exact h.memListed _ _ horig c' hc'
              · exact fun u' c' h' => h.ownerUser u' c' h'
              · exact fun c' u' h' => h.userOwner c' u' h'
              · intro r rm h' c' hc'
                rcases mlookup_cases_minsert h' with ⟨rfl, rfl⟩ | ⟨_, horig⟩
                · exact h.memIdent _ _ hroom c' (mem_serase.mp hc').1
                · exact h.memIdent _ _ horig c' hc'
              · exact fun c' rs' h' => h.setsNE c' rs' h'
          | some clientRoomSet =>
              simp only [hcs]
              by_cases hp : serase clientRoomSet request.roomname = []
              · rw [if_pos hp]
                refine ⟨?_, ?_, ?_, ?_, ?_, ?_, ?_, ?_⟩
                · exact fun u' c' h' => h.ownerConn u' c' h'
                · intro c' rs' h'
                  exact h.idxConn _ _ (mlookup_cases_merase h').2
                · intro r rm h' c' hc'
                  rcases mlookup_cases_minsert h' with ⟨rfl, rfl⟩ | ⟨_, horig⟩
                  · exact h.memConn _ _ hroom c' (mem_serase.mp hc').1
                  · exact h.memConn _ _ horig c' hc'
                · intro r rm h' c' hc'
                  rcases mlookup_cases_minsert h' with ⟨rfl, rfl⟩ | ⟨hner, horig⟩
                  · obtain ⟨hcm, hcne⟩ := mem_serase.mp hc'
                    obtain ⟨rs0, hrs0, hr0⟩ := h.memListed _ _ hroom c' hcm
                    exact ⟨rs0, by rw [mlookup_merase_ne _ hcne]; exact hrs0, hr0⟩
                  · obtain ⟨rs0, hrs0, hr0⟩ := h.memListed _ _ horig c' hc'
                    have hcc : c' ≠ c := by
                      intro he
                      subst he
                      rw [hcs] at hrs0
                      cases hrs0
                      have : r ∈ serase clientRoomSet request.roomname :=
                        mem_serase.mpr ⟨hr0, hner⟩
                      rw [hp] at this
                      exact absurd this (by simp)
                    exact ⟨rs0, by rw [mlookup_merase_ne _ hcc]; exact hrs0, hr0⟩
                · exact fun u' c' h' => h.ownerUser u' c' h'
                · exact fun c' u' h' => h.userOwner c' u' h'
                · intro r rm h' c' hc'
                  rcases mlookup_cases_minsert h' with ⟨rfl, rfl⟩ | ⟨_, horig⟩
                  · exact h.memIdent _ _ hroom c' (mem_serase.mp hc').1
                  · exact h.memIdent _ _ horig c' hc'
                · intro c' rs' h'
                  exact h.setsNE _ _ (mlookup_cases_merase h').2
              · rw [if_neg hp]
                refine ⟨?_, ?_, ?_, ?_, ?_, ?_, ?_, ?_⟩
                · exact fun u' c' h' => h.ownerConn u' c' h'
                · intro c' rs' h'
                  rcases mlookup_cases_minsert h' with ⟨rfl, _⟩ | ⟨_, horig⟩
                  · exact hreg
                  · exact h.idxConn _ _ horig
                · intro r rm h' c' hc'
                  rcases mlookup_cases_minsert h' with ⟨rfl, rfl⟩ | ⟨_, horig⟩
                  · exact h.memConn _ _ hroom c' (mem_serase.mp hc').1
                  · exact h.memConn _ _ horig c' hc'
                · intro r rm h' c' hc'
                  rcases mlookup_cases_minsert h' with ⟨rfl, rfl⟩ | ⟨hner, horig⟩
                  · obtain ⟨hcm, hcne⟩ := mem_serase.mp hc'
                    obtain ⟨rs0, hrs0, hr0⟩ := h.memListed _ _ hroom c' hcm
                    refine ⟨rs0, ?_, hr0⟩
                    rw [mlookup_minsert_ne _ _ hcne]
                    exact hrs0
                  · obtain ⟨rs0, hrs0, hr0⟩ := h.memListed _ _ horig c' hc'
                    by_cases hcc : c' = c
                    · subst hcc
                      rw [hcs] at hrs0
                      cases hrs0
                      exact ⟨_, mlookup_minsert_self _ _ _,
                        mem_serase.mpr ⟨hr0, hner⟩⟩
                    · exact ⟨rs0, by rw [mlookup_minsert_ne _ _ hcc]; exact hrs0,
                        hr0⟩
                · exact fun u' c' h' => h.ownerUser u' c' h'
                · exact fun c' u' h' => h.userOwner c' u' h'
                · intro r rm h' c' hc'
                  rcases mlookup_cases_minsert h' with ⟨rfl, rfl⟩ | ⟨_, horig⟩
                  · exact h.memIdent _ _ hroom c' (mem_serase.mp hc').1
                  · exact h.memIdent _ _ horig c' hc'
                · intro c' rs' h'
                  rcases mlookup_cases_minsert h' with ⟨rfl, rfl⟩ | ⟨_, horig⟩
                  · exact hp
                  · exact h.setsNE _ _ horig
        · exact h

/-- `handleInvite` preserves all hub invariants for an identified
sender: invitations touch only `invited` sets, which none of the
invariants constrain. -/
theorem hubInvL_handleInvite (s : HubState) (c u : String) (env : Envelope)
    (h : HubInvL s) : HubInvL (handleInvite s c u env).1 := by
  unfold handleInvite
  split
  · exact hubInvL_sendInvalid _ _ _ _ h
  · rename_i request hdec
    split
    · exact hubInvL_sendInvalid _ _ _ _ h
    · split
      · exact h
      · rename_i room hroom
        split
        · split
          · exact h
          · rename_i hmem ids hids
            simp only []
            have hmembers := inviteFold_members s request.roomname u ids (room, [])
            refine ⟨?_, ?_, ?_, ?_, ?_, ?_, ?_, ?_⟩
            · exact fun u' c' h' => h.ownerConn u' c' h'
            · exact fun c' rs' h' => h.idxConn c' rs' h'
            · intro r rm h' c' hc'
              rcases mlookup_cases_minsert h' with ⟨rfl, rfl⟩ | ⟨_, horig⟩
              · rw [hmembers] at hc'
                exact h.memConn _ _ hroom c' hc'
              · exact h.memConn _ _ horig c' hc'
            · intro r rm h' c' hc'
              rcases mlookup_cases_minsert h' with ⟨rfl, rfl⟩ | ⟨_, horig⟩
              · rw [hmembers] at hc'
                exact h.memListed _ _ hroom c' hc'
              · exact h.memListed _ _ horig c' hc'
            · exact fun u' c' h' => h.ownerUser u' c' h'
            · exact fun c' u' h' => h.userOwner c' u' h'
            · intro r rm h' c' hc'
              rcases mlookup_cases_minsert h' with ⟨rfl, rfl⟩ | ⟨_, horig⟩
              · rw [hmembers] at hc'
                exact h.memIdent _ _ hroom c' hc'
              · exact h.memIdent _ _ horig c' hc'
            · exact fun c' rs' h' => h.setsNE c' rs' h'
        · exact hubInvL_sendInvalid _ _ _ _ h


set_option maxHeartbeats 1000000 in
/-- `handleInbound` preserves all hub invariants when the sender still
has a connection record. -/
theorem hubInvL_handleInbound (s : HubState) (c : String) (frame : Json)
    (h : HubInvL s) (hreg : c ∈ s.clients) :
    HubInvL (handleInbound s c frame).1 := by
  unfold handleInbound
  split
  · exact hubInvL_sendInvalid _ _ _ _ h
  · split
    · rename_i hcu
      split
      · exact hubInvL_sendInvalid _ _ _ _ h
      · exact hubInvL_handleIdentify _ _ _ h hreg hcu
    · rename_i username hcu
      split
      · exact hubInvL_handleStatus _ _ _ _ h
      · split
        · exact hubInvL_handleUsers _ _ _ h
        · split
          · exact hubInvL_handleText _ _ _ _ h
          · split
            · exact hubInvL_handlePublicText _ _ _ _ h
            · split
              · exact hubInvL_handleNewRoom _ _ username _ h hcu
              · split
                · exact hubInvL_handleInvite _ _ _ _ h
                · split
                  · exact hubInvL_handleJoinRoom _ _ username _ h hcu
                  · split
                    · exact hubInvL_handleDisconnect _ _ _ h
                    · split
                      · exact hubInvL_handleRoomUsers _ _ _ h
                      · split
                        · exact hubInvL_handleRoomText _ _ _ _ h
                        · split
                          · exact hubInvL_handleLeaveRoom _ _ username _ h hcu
                          · exact hubInvL_sendInvalid _ _ _ _ h

theorem hubInvL_closeFold (cs : List String) :
    ∀ acc : HubState × List OutEvent, HubInvL acc.1 →
      HubInvL ((cs.foldl closeAllStep acc).1) := by
  induction cs with
  | nil => exact fun acc h => h
  | cons c rest ih =>
      intro acc h
      rw [List.foldl_cons]
      exact ih _ (hubInvL_forceDisconnect acc.1 c h)

/-- Claim C1 (amended): the connection-record invariant restricted to
the username index, the rooms-of-client index and room member sets —
together with the auxiliary structural invariants that make it inductive
— is preserved by every hub event whose inbound sender still has a
connection record.  Room `invited` sets are excluded: as
`c1_stale_invite_counterexample` shows, a disconnect removes a
ConnectionID from the `invited` sets only of rooms it was a member of,
so an invited-but-never-joined entry can outlive its connection. -/
theorem c1_connection_record_invariant_preserved (s : HubState) (e : HubEvent)
    (hinv : connRecordInvariant s ∧ hubAuxInvariant s)
    (hev : eventFromRegistered s e) :
    connRecordInvariant (step s e).1 ∧ hubAuxInvariant (step s e).1 := by
  rw [hubInv_iff] at hinv
  rw [hubInv_iff]
  cases e with
  | register c =>
      exact ⟨fun u' c' h' => mem_sinsert.mpr (Or.inr (hinv.ownerConn u' c' h')),
        fun c' rs h' => mem_sinsert.mpr (Or.inr (hinv.idxConn c' rs h')),
        fun r rm h' c' hc' =>
          mem_sinsert.mpr (Or.inr (hinv.memConn r rm h' c' hc')),
        hinv.memListed, hinv.ownerUser, hinv.userOwner, hinv.memIdent,
        hinv.setsNE⟩
  | unregister c => exact hubInvL_forceDisconnect s c hinv
  | inbound c frame => exact hubInvL_handleInbound s c frame hinv hev
  | shutdown => exact hubInvL_closeFold s.clients (s, []) hinv

/-- Claim C1 witness: the preserved invariant at a concrete state and
event (bob's connection, invited nowhere but identified, unregisters
from `inviteFixtureState`). -/
theorem c1_connection_record_invariant_preserved_witness :
    connRecordInvariant (step inviteFixtureState (.unregister "c2")).1 ∧
      hubAuxInvariant (step inviteFixtureState (.unregister "c2")).1 :=
  c1_connection_record_invariant_preserved inviteFixtureState (.unregister "c2")
    ⟨by unfold connRecordInvariant; decide, by unfold hubAuxInvariant; decide⟩
    True.intro

end ChatApp
